import Mathlib

/-!
Verification model of the Naukri Resdex scraper pipeline.

The repository contains two pipeline implementations:
* `naukri_scraper.py` — the synchronous pipeline (`NaukriScraper.scrape`), and
* `naukri_scraper_async.py` — the asynchronous pipeline (`NaukriScraper.run`).

Both are shallowly embedded below.  Python dictionaries are modelled as
association lists (first binding wins on lookup, which is exact because
Python dicts never hold duplicate keys), JSON values as the inductive
`JVal`, raising as `Except String`, the HTTP transport as explicit
response oracles, and the wall clock / random transaction ids as explicit
string parameters.  All definitions are structural (fuel-based where the
Python loop is not structurally decreasing) so that every concrete run can
be evaluated by `decide`/`rfl`.
-/

/-- JSON-like values as produced by `response.json()` and stored in
`self.body` in the Python source. -/
inductive JVal where
  | null
  | bool (b : Bool)
  | num (n : Int)
  | str (s : String)
  | arr (xs : List JVal)
  | obj (fields : List (String × JVal))

/-- Python truthiness (`if x:`) of a JSON value: `None`, `False`, `0`, `""`,
`[]` and `{}` are falsy, everything else truthy. -/
def JVal.truthy : JVal → Bool
  | .null => false
  | .bool b => b
  | .num n => n != 0
  | .str s => s != ""
  | .arr xs => !xs.isEmpty
  | .obj fs => !fs.isEmpty

/-- Models `d.get(k)` on a Python dict: the stored value, or `None` when absent. -/
def pyGetF (fs : List (String × JVal)) (k : String) : JVal :=
  match fs.find? (fun p => p.1 == k) with
  | some p => p.2
  | none => .null

/-- Models `d.get(k, default)` on a Python dict. -/
def pyGetFD (fs : List (String × JVal)) (k : String) (dflt : JVal) : JVal :=
  match fs.find? (fun p => p.1 == k) with
  | some p => p.2
  | none => dflt

/-- Models `v.get(k)`: works when `v` is a dict, raises `AttributeError` otherwise
(e.g. `list`/`str`/`int` have no `.get`). -/
def pyAttrGet (v : JVal) (k : String) : Except String JVal :=
  match v with
  | .obj fs => .ok (pyGetF fs k)
  | _ => .error "AttributeError: object has no attribute get"

/-- Models `v.get(k, default)`: dict lookup with default, `AttributeError` on
non-dicts. -/
def pyAttrGetD (v : JVal) (k : String) (dflt : JVal) : Except String JVal :=
  match v with
  | .obj fs => .ok (pyGetFD fs k dflt)
  | _ => .error "AttributeError: object has no attribute get"

/-- Models `v[k]` with a string key: dict indexing.  Raises `KeyError` when the key
is absent and `TypeError` when `v` is not a dict (list/str indices must be
integers; other values are not subscriptable). -/
def pyIndexKey (v : JVal) (k : String) : Except String JVal :=
  match v with
  | .obj fs =>
    match fs.find? (fun p => p.1 == k) with
    | some p => .ok p.2
    | none => .error ("KeyError: " ++ k)
  | _ => .error "TypeError: value is not subscriptable by a string key"

/-- Models `len(v)`: defined for lists, strings and dicts; `TypeError` for `None`,
booleans and numbers. -/
def pyLen (v : JVal) : Except String Nat :=
  match v with
  | .arr xs => .ok xs.length
  | .str s => .ok s.length
  | .obj fs => .ok fs.length
  | _ => .error "TypeError: object has no len"

/-- Python `a or b`: `a` when truthy, otherwise `b`. -/
def pyOr (a b : JVal) : JVal := if a.truthy then a else b

/-- Iterating a value (as `list.extend(v)` does): lists yield their
elements, strings their one-character substrings, dicts their keys;
`None`/numbers/booleans raise `TypeError`. -/
def pyIterElems (v : JVal) : Except String (List JVal) :=
  match v with
  | .arr xs => .ok xs
  | .str s => .ok (s.data.map (fun c => JVal.str (String.singleton c)))
  | .obj fs => .ok (fs.map (fun p => JVal.str p.1))
  | _ => .error "TypeError: object is not iterable"

/-- Models `v[:n]` for `n ≥ 0`: list and string slices; other values are not
sliceable. A string slice is later iterated character by character, so it is
returned here as the list of its one-character substrings. -/
def pySliceTake (n : Nat) (v : JVal) : Except String (List JVal) :=
  match v with
  | .arr xs => .ok (xs.take n)
  | .str s => .ok ((s.data.take n).map (fun c => JVal.str (String.singleton c)))
  | _ => .error "TypeError: value is not sliceable"

/-- Models `v > n` for an int literal `n`: ints compare, `bool` is an int in
Python; any other operand raises `TypeError`. -/
def pyGtNum (v : JVal) (n : Int) : Except String Bool :=
  match v with
  | .num m => .ok (decide (n < m))
  | .bool b => .ok (decide (n < (if b then (1 : Int) else 0)))
  | _ => .error "TypeError: comparison not supported"

/-- Whether an `Except` is a success. -/
def Except.isOkB : Except String α → Bool
  | .ok _ => true
  | .error _ => false

/- ### Character/string utilities

The Python code manipulates the raw cURL text with `str.replace` and
regular expressions.  Those are re-implemented here over `List Char` by
structural recursion so the kernel can evaluate them. -/

/-- Single-quote character (39). -/
def sqc : Char := Char.ofNat 39

/-- Double-quote character (34). -/
def dqc : Char := Char.ofNat 34

/-- Opening-brace character (123). -/
def lbc : Char := Char.ofNat 123

/-- Closing-brace character (125). -/
def rbc : Char := Char.ofNat 125

/-- Character class `\s` of Python `re`: space, tab, newline, carriage return, vertical
tab, form feed. -/
def isSpaceCh (c : Char) : Bool :=
  c == ' ' || c == '\t' || c == '\n' || c == '\r' || c == Char.ofNat 11 || c == Char.ofNat 12

/-- Character class `\w` of Python `re` (ASCII part): letters, digits, underscore. -/
def isWordCh (c : Char) : Bool := c.isAlphanum || c == '_'

/-- Does `pat` occur as a leading segment of `cs`? -/
def leadsWith : List Char → List Char → Bool
  | [], _ => true
  | _ :: _, [] => false
  | p :: ps, c :: cs => p == c && leadsWith ps cs

/-- Substring occurrence test over character lists. -/
def hasSubList (pat : List Char) : List Char → Bool
  | [] => leadsWith pat []
  | c :: cs => leadsWith pat (c :: cs) || hasSubList pat cs

/-- Models `pat in s` on Python strings (used for the quota/captcha marker checks
and the `/rdxLite/` check). -/
def containsSub (s pat : String) : Bool := hasSubList pat.data s.data

/-- One step of Python `str.replace`: left-to-right, non-overlapping. -/
def replaceAllGo (pat repl : List Char) : Nat → List Char → List Char
  | 0, cs => cs
  | _ + 1, [] => []
  | fuel + 1, c :: cs =>
    if leadsWith pat (c :: cs) then repl ++ replaceAllGo pat repl fuel (cs.drop (pat.length - 1))
    else c :: replaceAllGo pat repl fuel cs

/-- Python `str.replace` over character lists (for non-empty patterns). -/
def replaceAll (pat repl cs : List Char) : List Char := replaceAllGo pat repl cs.length cs

/-- Models `re.sub(r"\s+", " ", s)`: collapse every whitespace run to one space. -/
def collapseWsGo : Bool → List Char → List Char
  | _, [] => []
  | prevWs, c :: rest =>
    if isSpaceCh c then
      if prevWs then collapseWsGo true rest
      else ' ' :: collapseWsGo true rest
    else c :: collapseWsGo false rest

/-- The normalisation step of `parse_curl` (both files, identical code):
`replace("\\\n", " ").replace("\\n", " ").replace("\n", " ")` followed by
`re.sub(r"\s+", " ", ...)`. -/
def normalizeCurl (raw : String) : List Char :=
  collapseWsGo false
    (replaceAll ('\n' :: []) (' ' :: [])
      (replaceAll ('\\' :: 'n' :: []) (' ' :: [])
        (replaceAll ('\\' :: '\n' :: []) (' ' :: []) raw.data)))

/-- Models `str.strip()` / the `\s*`-trimming used for header keys and values. -/
def trimCh (cs : List Char) : List Char :=
  ((cs.dropWhile isSpaceCh).reverse.dropWhile isSpaceCh).reverse

/-- Python `str.lower()` (ASCII). -/
def lowerCh (cs : List Char) : List Char := cs.map Char.toLower

/-- Models `x in v` for a string `x` (the membership test `'profile' in res`):
key membership for dicts, substring test for strings, element membership
for lists; `TypeError` otherwise. -/
def pyContainsStr (v : JVal) (x : String) : Except String Bool :=
  match v with
  | .obj fs => .ok (fs.any (fun p => p.1 == x))
  | .str s => .ok (hasSubList x.data s.data)
  | .arr xs => .ok (xs.any (fun e => match e with | .str t => t == x | _ => false))
  | _ => .error "TypeError: argument is not iterable"

/- ### Regular-expression matchers

Each regex used by `parse_curl` is implemented as a deterministic matcher
at a position plus a leftmost scan (`re.search`) or a repeated
non-overlapping scan (`re.finditer`).  For each pattern the greedy/lazy
quantifier semantics collapse to the deterministic forms used here, as
argued in the individual doc comments. -/

/-- Case-sensitive literal matcher; returns the remainder on success. -/
def matchLitCS : List Char → List Char → Option (List Char)
  | [], cs => some cs
  | p :: ps, c :: cs => if p == c then matchLitCS ps cs else none
  | _ :: _, [] => none

/-- Case-insensitive literal matcher (pattern given lower-case), for
patterns compiled with `re.IGNORECASE`. -/
def matchLitCI : List Char → List Char → Option (List Char)
  | [], cs => some cs
  | p :: ps, c :: cs => if p == c.toLower then matchLitCI ps cs else none
  | _ :: _, [] => none

/-- Matches `\s+` (maximal munch; in every use the following token is
never whitespace, so maximal is the only viable choice). -/
def ws1 : List Char → Option (List Char)
  | c :: rest => if isSpaceCh c then some (rest.dropWhile isSpaceCh) else none
  | [] => none

/-- Leftmost `re.search`: try the matcher at each successive position. -/
def scanFor (m : List Char → Option α) : List Char → Option α
  | [] => none
  | c :: cs =>
    match m (c :: cs) with
    | some r => some r
    | none => scanFor m cs

/-- Lazy capture `(.+?)` terminated by the back-referenced quote `\1`:
the shortest non-empty run of characters followed by `q` (after
normalisation the text has no newlines, so `.` matches every character).
`acc` holds the reversed content so far, seeded with the first (forced)
content character. -/
def lazyCapGo (q : Char) (acc : List Char) : List Char → Option (List Char)
  | [] => none
  | c :: rest => if c == q then some acc.reverse else lazyCapGo q (c :: acc) rest

/-- Lazy capture `(.+?)` terminated by `\1` plus a trailing context: the
shortest non-empty run whose closing quote is followed by text satisfying
`ctx`. -/
def lazyCtxGo (q : Char) (ctx : List Char → Bool) (acc : List Char) : List Char → Option (List Char)
  | [] => none
  | c :: rest =>
    if c == q && ctx rest then some acc.reverse else lazyCtxGo q ctx (c :: acc) rest

/-- Matches the optional group `(?:-X\s+\w+\s+)` of the URL regexes. -/
def matchXGroup (cs : List Char) : Option (List Char) := do
  let r1 ← matchLitCI ('-' :: 'x' :: []) cs
  let r2 ← ws1 r1
  let w := r2.takeWhile isWordCh
  if w.isEmpty then none else ws1 (r2.drop w.length)

/-- Matches the tail `'([^']+)'` of URL regex 1: a single-quoted non-empty
capture. -/
def singleQuoteCap (cs : List Char) : Option (List Char) :=
  match cs with
  | q :: rest =>
    if q == sqc then
      let cap := rest.takeWhile (fun c => c != sqc)
      if cap.isEmpty then none
      else
        match rest.drop cap.length with
        | c :: _ => if c == sqc then some cap else none
        | [] => none
    else none
  | [] => none

/-- Matches the tail `["']([^"']+)["']` of URL regex 2: either quote opens,
either quote closes (no back-reference in the original pattern). -/
def anyQuoteCap (cs : List Char) : Option (List Char) :=
  match cs with
  | q :: rest =>
    if q == sqc || q == dqc then
      let cap := rest.takeWhile (fun c => c != sqc && c != dqc)
      if cap.isEmpty then none
      else
        match rest.drop cap.length with
        | c :: _ => if c == sqc || c == dqc then some cap else none
        | [] => none
    else none
  | [] => none

/-- Matches `curl\s+(?:-X\s+\w+\s+)?'([^']+)'` (IGNORECASE) at a position.
When the optional `-X` group has matched, the ungrouped alternative would
have to match a quote against the leading dash and always fails, so trying
the group first is equivalent to full backtracking. -/
def matchUrl1At (cs : List Char) : Option (List Char) := do
  let r1 ← matchLitCI ('c' :: 'u' :: 'r' :: 'l' :: []) cs
  let r2 ← ws1 r1
  let r3 := match matchXGroup r2 with
    | some r => r
    | none => r2
  singleQuoteCap r3

/-- Matches `curl\s+(?:-X\s+\w+\s+)?["']([^"']+)["']` (IGNORECASE), the
second URL attempt of the async parser. -/
def matchUrl2At (cs : List Char) : Option (List Char) := do
  let r1 ← matchLitCI ('c' :: 'u' :: 'r' :: 'l' :: []) cs
  let r2 ← ws1 r1
  let r3 := match matchXGroup r2 with
    | some r => r
    | none => r2
  anyQuoteCap r3

/-- URL extraction of the async `parse_curl` (lines 89-93): regex 1, then
the either-quote regex 2 as fallback. -/
def findUrlAsync (cs : List Char) : Option (List Char) :=
  match scanFor matchUrl1At cs with
  | some u => some u
  | none => scanFor matchUrl2At cs

/-- URL extraction of the sync `parse_curl` (lines 61-63): regex 1 only. -/
def findUrlSync (cs : List Char) : Option (List Char) := scanFor matchUrl1At cs

/-- Matches `-H\s+(['"])([^:]+):\s*([^'"]+)\1` (IGNORECASE) at a position;
returns the raw key and value captures plus the remainder after the match.
`[^:]+` is the run up to the first colon and `[^'"]+` the run up to the
first quote of either kind; neither class can cross its terminator, so the
greedy quantifiers are deterministic. -/
def matchHeaderAt (cs : List Char) : Option ((List Char × List Char) × List Char) := do
  let r1 ← matchLitCI ('-' :: 'h' :: []) cs
  let r2 ← ws1 r1
  match r2 with
  | q :: r3 =>
    if q == sqc || q == dqc then
      let key := r3.takeWhile (fun c => c != ':')
      if key.isEmpty then none
      else
        match r3.drop key.length with
        | ':' :: r4 =>
          let r5 := r4.dropWhile isSpaceCh
          let val := r5.takeWhile (fun c => c != sqc && c != dqc)
          if val.isEmpty then none
          else
            match r5.drop val.length with
            | c :: r6 => if c == q then some ((key, val), r6) else none
            | [] => none
        | _ => none
    else none
  | [] => none

/-- Implements `re.finditer` for the header pattern: scan left to right,
emitting non-overlapping matches and resuming after each match; on failure
advance one position.  Every step consumes at least one character, so
`fuel = length` suffices. -/
def findHeadersGo : Nat → List Char → List (List Char × List Char)
  | 0, _ => []
  | _ + 1, [] => []
  | fuel + 1, c :: cs =>
    match matchHeaderAt (c :: cs) with
    | some (kv, rest) => kv :: findHeadersGo fuel rest
    | none => findHeadersGo fuel cs

/-- All `-H` header matches of the normalised template, in order. -/
def findHeaders (cs : List Char) : List (List Char × List Char) :=
  findHeadersGo cs.length cs

/-- Matches `-b\s+(['"])(.+?)\1` (IGNORECASE), the async cookie flag
(line 98; only the first match is used). -/
def matchBFlagAt (cs : List Char) : Option (List Char) := do
  let r1 ← matchLitCI ('-' :: 'b' :: []) cs
  let r2 ← ws1 r1
  match r2 with
  | q :: rest =>
    if q == sqc || q == dqc then
      match rest with
      | c0 :: r3 => lazyCapGo q (c0 :: []) r3
      | [] => none
    else none
  | [] => none

/-- Trailing context `\s+(?:-[A-Z]|--)` of the sync `-b` pattern
(line 70).  Under IGNORECASE the class `[A-Z]` also matches lower-case
letters. -/
def bCtxFlag (cs : List Char) : Bool :=
  match cs with
  | c :: rest =>
    isSpaceCh c &&
      (match rest.dropWhile isSpaceCh with
       | '-' :: d :: _ => d.isAlpha || d == '-'
       | _ => false)
  | [] => false

/-- Trailing context `\s*$` of the sync end-of-string `-b` pattern
(line 75). -/
def bCtxEnd (cs : List Char) : Bool := (cs.dropWhile isSpaceCh).isEmpty

/-- Matches `-b\s+(['"])(.+?)\1` followed by a required trailing context
(the sync cookie patterns at lines 70 and 75). -/
def matchBFlagCtxAt (ctx : List Char → Bool) (cs : List Char) : Option (List Char) := do
  let r1 ← matchLitCI ('-' :: 'b' :: []) cs
  let r2 ← ws1 r1
  match r2 with
  | q :: rest =>
    if q == sqc || q == dqc then
      match rest with
      | c0 :: r3 => lazyCtxGo q ctx (c0 :: []) r3
      | [] => none
    else none
  | [] => none

/-- Matches `-H\s+(['"])cookie:\s*(.+?)\1` (IGNORECASE), the header-borne
cookie (async line 103, sync line 81). -/
def matchHCookieAt (cs : List Char) : Option (List Char) := do
  let r1 ← matchLitCI ('-' :: 'h' :: []) cs
  let r2 ← ws1 r1
  match r2 with
  | q :: r3 =>
    if q == sqc || q == dqc then do
      let r4 ← matchLitCI ('c' :: 'o' :: 'o' :: 'k' :: 'i' :: 'e' :: []) r3
      match r4 with
      | ':' :: r5 =>
        match r5.dropWhile isSpaceCh with
        | c0 :: r7 => lazyCapGo q (c0 :: []) r7
        | [] => none
      | _ => none
    else none
  | [] => none

/-- One alternative of the data-flag pattern: a literal flag name followed
by `\s+(['{])(.+?)\1`.  The opening "quote" class is a single quote or an
opening brace, matched again by the back-reference. -/
def dataFlagWith (lit : List Char) (cs : List Char) : Option (List Char) := do
  let r1 ← matchLitCI lit cs
  let r2 ← ws1 r1
  match r2 with
  | q :: rest =>
    if q == sqc || q == lbc then
      match rest with
      | c0 :: r3 => lazyCapGo q (c0 :: []) r3
      | [] => none
    else none
  | [] => none

/-- Matches `(?:--data-raw|--data|-d)\s+(['{])(.+?)\1` (IGNORECASE) at a
position: the alternatives are tried in the written order, each with the
full continuation. -/
def matchDataAt (cs : List Char) : Option (List Char) :=
  match dataFlagWith "--data-raw".data cs with
  | some v => some v
  | none =>
    match dataFlagWith "--data".data cs with
    | some v => some v
    | none => dataFlagWith ('-' :: 'd' :: []) cs

/- ### Dict operations and the parsed descriptor -/

/-- Python dict assignment `d[k] = v` on an association list: update the
existing binding in place (dicts keep insertion order) or append a new
one. -/
def dictInsert (hs : List (String × String)) (k v : String) : List (String × String) :=
  if hs.any (fun p => p.1 == k) then hs.map (fun p => if p.1 == k then (p.1, v) else p)
  else hs ++ [(k, v)]

/-- Lookup in a header map. -/
def dictFind (hs : List (String × String)) (k : String) : Option String :=
  (hs.find? (fun p => p.1 == k)).map (fun p => p.2)

/-- Membership in a header map (`k in d`). -/
def dictHas (hs : List (String × String)) (k : String) : Bool :=
  hs.any (fun p => p.1 == k)

/-- Header keys skipped by the async parser (line 133). -/
def asyncHeaderDeny : List String :=
  ["cookie", "content-length", "accept-encoding", "authority", "host", "priority"]

/-- Header-assignment loop of the async `parse_curl` (lines 128-134):
lower-cased stripped key, stripped value, deny-listed keys skipped, and a
plain dict assignment for the rest (so a later occurrence of a key
overwrites an earlier one). -/
def applyHeadersAsync (h0 : List (String × String)) (ms : List (List Char × List Char)) :
    List (String × String) :=
  ms.foldl
    (fun acc kv =>
      let key := (lowerCh (trimCh kv.1)).asString
      let val := (trimCh kv.2).asString
      if asyncHeaderDeny.contains key then acc else dictInsert acc key val)
    h0

/-- Header-assignment loop of the sync `parse_curl` (lines 94-99): assign
unless the key is `cookie` and already present (`if key != 'cookie' or key
not in self.headers`). -/
def applyHeadersSync (h0 : List (String × String)) (ms : List (List Char × List Char)) :
    List (String × String) :=
  ms.foldl
    (fun acc kv =>
      let key := (lowerCh (trimCh kv.1)).asString
      let val := (trimCh kv.2).asString
      if key != "cookie" || !dictHas acc key then dictInsert acc key val else acc)
    h0

/-- Default headers applied by the async parser (lines 150-158). -/
def defaultHeadersAsync : List (String × String) :=
  [("accept", "application/json"),
   ("accept-language", "en-US,en;q=0.9"),
   ("appid", "112"),
   ("content-type", "application/json"),
   ("origin", "https://resdex.naukri.com"),
   ("systemid", "naukriIndia"),
   ("user-agent", "Mozilla/5.0 (Macintosh; Intel Mac OS X 10_15_7) AppleWebKit/537.36 (KHTML, like Gecko) Chrome/143.0.0.0 Safari/537.36")]

/-- Default headers applied by the sync parser (lines 129-134); it sets no
default user agent. -/
def defaultHeadersSync : List (String × String) :=
  [("accept", "application/json"),
   ("accept-language", "en-US,en;q=0.9"),
   ("appid", "112"),
   ("content-type", "application/json"),
   ("origin", "https://resdex.naukri.com"),
   ("systemid", "naukriIndia")]

/-- Models `dict.setdefault` over the default-header table: add each
default only when the key is not already present. -/
def applyDefaults (hs : List (String × String)) (ds : List (String × String)) :
    List (String × String) :=
  ds.foldl (fun acc kv => if dictHas acc kv.1 then acc else acc ++ [kv]) hs

/-- Unescaping `replace('\\"', '"').replace("\\'", "'")` applied to cookie
and body payloads. -/
def unescapeQuotes (cs : List Char) : List Char :=
  replaceAll ('\\' :: sqc :: []) (sqc :: []) (replaceAll ('\\' :: dqc :: []) (dqc :: []) cs)

/-- Brace-wrapping of a data payload that does not start with a brace
after stripping (`if not raw_body.strip().startswith('{')`). -/
def wrapBraces (cs : List Char) : List Char :=
  match trimCh cs with
  | c :: _ => if c == lbc then cs else lbc :: (cs ++ [rbc])
  | [] => lbc :: (cs ++ [rbc])

/-- Digit run to a natural number (for `int(...)` on a `\d+` capture). -/
def natOfDigits (ds : List Char) : Nat :=
  ds.foldl (fun n c => n * 10 + (c.toNat - 48)) 0

/-- Matches `requirementId["\']:\s*["\']?(\d+)` at a position (case
sensitive), returning the digit capture.  The optional quote is taken when
present; if no digits follow it the alternative without it starts at the
quote, which is not a digit, so both fail. -/
def matchReqIdAt (cs : List Char) : Option (List Char) := do
  let r1 ← matchLitCS "requirementId".data cs
  match r1 with
  | q :: ':' :: r3 =>
    if q == dqc || q == sqc then
      let r4 := r3.dropWhile isSpaceCh
      let r5 := match r4 with
        | c :: rest => if c == dqc || c == sqc then rest else r4
        | [] => r4
      let ds := r5.takeWhile Char.isDigit
      if ds.isEmpty then none else some ds
    else none
  | _ => none

/-- Matches `companyId["\']:\s*(\d+)` at a position. -/
def matchCompanyIdAt (cs : List Char) : Option (List Char) := do
  let r1 ← matchLitCS "companyId".data cs
  match r1 with
  | q :: ':' :: r3 =>
    if q == dqc || q == sqc then
      let ds := (r3.dropWhile isSpaceCh).takeWhile Char.isDigit
      if ds.isEmpty then none else some ds
    else none
  | _ => none

/-- Matches `lit["\']:\s*["\']([^"\']+)` at a position (shared by the
`rdxUserId` and `rdxUserName` extractions): a required quote then a
non-empty run free of quotes, with no closing delimiter required. -/
def matchQuotedValAt (lit : List Char) (cs : List Char) : Option (List Char) := do
  let r1 ← matchLitCS lit cs
  match r1 with
  | q :: ':' :: r3 =>
    if q == dqc || q == sqc then
      match r3.dropWhile isSpaceCh with
      | c :: r4 =>
        if c == dqc || c == sqc then
          let cap := r4.takeWhile (fun d => d != dqc && d != sqc)
          if cap.isEmpty then none else some cap
        else none
      | [] => none
    else none
  | _ => none

/-- Implements `_manual_body_extraction` (async lines 169-186; the sync
fallback at lines 110-126 is the same code): best-effort regex extraction
of a minimal body document, absent matches becoming `None`. -/
def manualBody (text : List Char) : JVal :=
  let reqId := scanFor matchReqIdAt text
  let companyId := scanFor matchCompanyIdAt text
  let userId := scanFor (matchQuotedValAt "rdxUserId".data) text
  let userName := scanFor (matchQuotedValAt "rdxUserName".data) text
  JVal.obj
    [("requirementId", match reqId with | some d => .str d.asString | none => .null),
     ("requirementGroupId", match reqId with | some d => .str d.asString | none => .null),
     ("newCandidatesSearch", .bool false),
     ("saveSession", .bool true),
     ("miscellaneousInfo", .obj
       [("companyId", match companyId with | some d => .num (natOfDigits d) | none => .null),
        ("rdxUserId", match userId with | some s => .str s.asString | none => .null),
        ("rdxUserName", match userName with | some s => .str s.asString | none => .null)])]

/-- Body phase of the async `parse_curl` (lines 136-147): locate the data
flag, unescape, brace-wrap when needed, and try `json.loads` — modelled by
the external parameter `jsonParse` — falling back to the manual extraction
on a parse failure or, through the `else` at line 146, when no data flag
is found. -/
def parseBody (jsonParse : String → Option JVal) (n : List Char) : JVal :=
  match scanFor matchDataAt n with
  | some raw =>
    let wrapped := wrapBraces (unescapeQuotes raw)
    match jsonParse wrapped.asString with
    | some j => j
    | none => manualBody n
  | none => manualBody n

/-- Body phase of the sync `parse_curl` (lines 102-126): the same data-flag
match and `json.loads` attempt with the manual extraction on a decode
failure, but the `if body_match:` has no `else` branch — when no data flag
is found, `self.body` keeps its `__init__` value `{}` (line 48). -/
def parseBodySync (jsonParse : String → Option JVal) (n : List Char) : JVal :=
  match scanFor matchDataAt n with
  | some raw =>
    let wrapped := wrapBraces (unescapeQuotes raw)
    match jsonParse wrapped.asString with
    | some j => j
    | none => manualBody n
  | none => .obj []

/-- The parsed request descriptor (`self.url`, `self.headers`,
`self.body`). -/
structure Descriptor where
  url : String
  headers : List (String × String)
  body : JVal

/-- Implements the async `parse_curl` (lines 72-162).  The `SimpleCookie`
parse populates only `self.cookies_dict`, which no later code reads
(`_update_cookie_header` is never called), so it is not modelled. -/
def parseCurlAsync (raw : String) (jsonParse : String → Option JVal) : Except String Descriptor :=
  let n := normalizeCurl raw
  match findUrlAsync n with
  | none => .error "Failed to extract URL from cURL"
  | some url =>
    let cookie := match scanFor matchBFlagAt n with
      | some c => some c
      | none => scanFor matchHCookieAt n
    let h0 : List (String × String) := match cookie with
      | some c => [("cookie", (unescapeQuotes c).asString)]
      | none => []
    let h1 := applyHeadersAsync h0 (findHeaders n)
    let body := parseBody jsonParse n
    let h2 := applyDefaults h1 defaultHeadersAsync
    .ok ⟨url.asString, h2, body⟩

/-- Implements the sync `parse_curl` (lines 52-143): single-quote URL
regex only, cookie required (two `-b` variants then the header form),
cookie-preserving header loop, and defaults without a user agent. -/
def parseCurlSync (raw : String) (jsonParse : String → Option JVal) : Except String Descriptor :=
  let n := normalizeCurl raw
  match findUrlSync n with
  | none => .error "Failed to extract URL from cURL"
  | some url =>
    let cookie := match scanFor (matchBFlagCtxAt bCtxFlag) n with
      | some c => some c
      | none =>
        match scanFor (matchBFlagCtxAt bCtxEnd) n with
        | some c => some c
        | none => scanFor matchHCookieAt n
    match cookie with
    | none => .error "No cookie found in cURL command"
    | some c =>
      let h0 : List (String × String) := [("cookie", (unescapeQuotes c).asString)]
      let h1 := applyHeadersSync h0 (findHeaders n)
      let body := parseBodySync jsonParse n
      let h2 := applyDefaults h1 defaultHeadersSync
      .ok ⟨url.asString, h2, body⟩


/- ### Normalizer: `_format_profile` (async lines 426-511) -/

/-- Models `edu_list[i].get(key)`: indexing then `.get`.  Lists index
normally but a non-dict element has no `.get`; strings index to a
one-character string which has no `.get`; dicts reject integer indices
with `KeyError`; other values are not subscriptable. -/
def eduIndexGet (edu : JVal) (i : Nat) (key : String) : Except String JVal :=
  match edu with
  | .arr xs =>
    match xs.get? i with
    | some (.obj fs) => .ok (pyGetF fs key)
    | some _ => .error "AttributeError: object has no attribute get"
    | none => .error "IndexError: list index out of range"
  | .str s =>
    if i < s.length then .error "AttributeError: object has no attribute get"
    else .error "IndexError: string index out of range"
  | .obj _ => .error "KeyError: integer key on a string-keyed dict"
  | _ => .error "TypeError: value is not subscriptable"

/-- Models `edu_list[0].get(k) if edu_list else None` (async lines
484-487). -/
def ugField (edu : JVal) (key : String) : Except String JVal :=
  if edu.truthy then eduIndexGet edu 0 key else .ok .null

/-- Models `edu_list[1].get(k) if len(edu_list) > 1 else None` (async
lines 489-492); `len` itself raises on unsized values such as `None`. -/
def pgField (edu : JVal) (key : String) : Except String JVal := do
  let n ← pyLen edu
  if 1 < n then eduIndexGet edu 1 key else .ok .null

/-- Implements `_format_profile` without the trailing `scrapedAt` field
(async lines 426-509).  Only the education fields can raise; they are
bound first here, in source order relative to each other — all remaining
fields are non-raising `data.get` reads, so the observable outcome is
unchanged. -/
def formatCore (data : JVal) : Except String (List (String × JVal)) :=
  match data with
  | .obj fs => do
    let eduList := pyGetFD fs "educations" (.arr [])
    let skills := pyOr (pyGetF fs "mergedKeySkill") (pyGetF fs "keywords")
    let ugDegree ← ugField eduList "degree"
    let ugSpec ← ugField eduList "specialization"
    let ugInst ← ugField eduList "institute"
    let ugYear ← ugField eduList "year"
    let pgDegree ← pgField eduList "degree"
    let pgSpec ← pgField eduList "specialization"
    let pgInst ← pgField eduList "institute"
    let pgYear ← pgField eduList "year"
    .ok
      [("name", pyGetF fs "name"),
       ("email", pyGetF fs "email"),
       ("mobile", pyGetF fs "mobile"),
       ("gender", pyGetF fs "gender"),
       ("dateOfBirth", pyOr (pyGetF fs "dateOfBirth") (pyGetF fs "birthDate")),
       ("maritalStatus", pyGetF fs "maritalStatus"),
       ("currentLocation", pyOr (pyGetF fs "currentLocation") (pyGetF fs "mailCity")),
       ("permanentAddress", pyGetF fs "permanentAddress"),
       ("preferredLocations", pyGetF fs "preferredLocations"),
       ("currentDesignation", pyGetF fs "currentDesignation"),
       ("currentCompany", pyGetF fs "currentCompany"),
       ("currentRole", pyGetF fs "currentRole"),
       ("functionalArea", pyGetF fs "functionalArea"),
       ("industryType", pyGetF fs "industryType"),
       ("employmentType", pyGetF fs "employmentType"),
       ("previousDesignation", pyGetF fs "previousDesignation"),
       ("previousCompany", pyGetF fs "previousCompany"),
       ("totalExperience", pyGetF fs "totalExperience"),
       ("currentCTC", pyGetF fs "currentCTC"),
       ("expectedCTC", pyGetF fs "expectedCTC"),
       ("noticePeriod", pyGetF fs "noticePeriod"),
       ("ugDegree", ugDegree),
       ("ugSpecialization", ugSpec),
       ("ugInstitute", ugInst),
       ("ugYear", ugYear),
       ("pgDegree", pgDegree),
       ("pgSpecialization", pgSpec),
       ("pgInstitute", pgInst),
       ("pgYear", pgYear),
       ("keySkills", skills),
       ("jobTitle", pyGetF fs "jobTitle"),
       ("profileSummary", pyOr (pyGetF fs "profileSummary") (pyGetF fs "summary")),
       ("profileViews", pyGetF fs "profileViews"),
       ("profileDownloads", pyGetF fs "profileDownloads"),
       ("cvAttached", pyGetF fs "cvAttached"),
       ("textCv", pyGetF fs "textCv"),
       ("profileLastModified", pyGetF fs "profileLastModified"),
       ("profileLastActive", pyGetF fs "profileLastActive")]
  | _ => .error "AttributeError: object has no attribute get"

/-- Implements `_format_profile` (async lines 426-511): the core fields
plus `scrapedAt`, which records the wall clock at call time
(`datetime.now().isoformat()`), passed in explicitly as `now`. -/
def formatProfile (now : String) (data : JVal) : Except String (List (String × JVal)) :=
  (formatCore data).map (fun core => core ++ [("scrapedAt", JVal.str now)])

/-- Erases the `scrapedAt` field of a normalised record, for stating
clock-independence of all other fields. -/
def dropScrapedAt (r : Except String (List (String × JVal))) :
    Except String (List (String × JVal)) :=
  r.map (fun l => l.filter (fun p => p.1 != "scrapedAt"))

/-- Projection reading the `scrapedAt` field of a normalised record. -/
def scrapedOf (r : Except String (List (String × JVal))) : Option String :=
  match r with
  | .ok l =>
    match l.find? (fun p => p.1 == "scrapedAt") with
    | some p =>
      match p.2 with
      | .str s => some s
      | _ => none
    | none => none
  | .error _ => none

/-- Shapes of the `educations` value on which `_format_profile` cannot
raise: a list whose first two entries (when accessed) are dicts, or an
empty (falsy, but sized) string or dict.  `None`, booleans, numbers and
truthy non-lists all raise. -/
def eduOk : JVal → Bool
  | .arr [] => true
  | .arr (x :: rest) =>
    (match x with
     | .obj _ => true
     | _ => false) &&
    (match rest with
     | [] => true
     | y :: _ =>
       match y with
       | .obj _ => true
       | _ => false)
  | .str s => s == ""
  | .obj fs => fs.isEmpty
  | _ => false

/-- The `educations` value a raw record presents to the normaliser. -/
def eduOf (data : JVal) : Except String JVal := pyAttrGetD data "educations" (.arr [])

/- ### Detail fetches -/

/-- Transport outcome of one sync detail attempt as seen through
`requests`: a parsed 200 response, a `RequestException` with its message
(`raise_for_status` failures, timeouts, connection errors), or any other
exception (e.g. a JSON decode failure of a 200 body), which the sync
retry code does not catch. -/
inductive DetailResp where
  | ok (data : JVal)
  | reqErr (msg : String)
  | otherExn (msg : String)

/-- Quota/captcha/403 marker check of the sync `get_individual_profile`
(line 272): substring tests on the exception text. -/
def isQuotaMsg (m : String) : Bool :=
  containsSub m "QUOTA" || containsSub m "Captcha" || containsSub m "403"

/-- Retry recursion of the sync `get_individual_profile` (lines 223-283):
success returns the parsed data; a `RequestException` whose message holds
a quota marker raises `QUOTA_EXHAUSTED`; other `RequestException`s retry
up to `maxRetries` further attempts then give up with `None`; any other
exception propagates.  Also returns the number of HTTP calls made.
`fuel` realises the recursion; the caller passes `maxRetries + 1`, which
the guard `retry_count < maxRetries` never exhausts. -/
def getProfileSyncGo (o : Nat → DetailResp) (maxRetries : Nat) :
    Nat → Nat → Except String (Option JVal) × Nat
  | _, 0 => (.ok none, 0)
  | rc, fuel + 1 =>
    match o rc with
    | .ok d => (.ok (some d), rc + 1)
    | .otherExn m => (.error m, rc + 1)
    | .reqErr m =>
      if isQuotaMsg m then (.error "QUOTA_EXHAUSTED", rc + 1)
      else if rc < maxRetries then getProfileSyncGo o maxRetries (rc + 1) fuel
      else (.ok none, rc + 1)

/-- Sync `get_individual_profile` against a per-attempt response oracle. -/
def getProfileSync (o : Nat → DetailResp) (maxRetries : Nat) :
    Except String (Option JVal) × Nat :=
  getProfileSyncGo o maxRetries 0 (maxRetries + 1)

/-- Transport outcome of one async detail attempt: an HTTP response with
status and body-parse result, or an exception raised by the request. -/
inductive AsyncResp where
  | resp (status : Nat) (body : Except String JVal)
  | exn (msg : String)

/-- Attempt loop of the async `get_individual_profile` (lines 266-284):
three attempts; a 200 with JSON success returns the data; 403/429 sleeps
and retries; 401 breaks out immediately; any other status, JSON failure
or exception falls through to the next attempt; exhaustion returns
`None`.  Also returns the number of HTTP calls made. -/
def getProfileAsyncGo (o : Nat → AsyncResp) : Nat → Nat → Option JVal × Nat
  | attempt, 0 => (none, attempt)
  | attempt, fuel + 1 =>
    match o attempt with
    | .resp 200 (.ok d) => (some d, attempt + 1)
    | .resp 200 (.error _) => getProfileAsyncGo o (attempt + 1) fuel
    | .resp s _ =>
      if s == 403 || s == 429 then getProfileAsyncGo o (attempt + 1) fuel
      else if s == 401 then (none, attempt + 1)
      else getProfileAsyncGo o (attempt + 1) fuel
    | .exn _ => getProfileAsyncGo o (attempt + 1) fuel

/-- Async `get_individual_profile` against a per-attempt response oracle
(`range(3)` attempts). -/
def getProfileAsync (o : Nat → AsyncResp) : Option JVal × Nat :=
  getProfileAsyncGo o 0 3

/-- Field accesses of the sync `get_individual_profile` that precede its
`try` block (lines 225-253): failures here propagate out of the call and
are counted by the scrape loop as ordinary per-stub failures.  (The
`profile.get('jsUserName', ...)` read inside the `try` cannot fail once
`profile.get('dynamicEncryptedUniqueId')` has succeeded.) -/
def syncStubPrelude (body profile : JVal) : Except String Unit := do
  let misc ← pyIndexKey body "miscellaneousInfo"
  let _ ← pyIndexKey misc "companyId"
  let _ ← pyIndexKey misc "rdxUserId"
  let _ ← pyAttrGet profile "dynamicEncryptedUniqueId"
  let _ ← pyIndexKey body "requirementId"
  let _ ← pyAttrGet profile "dynamicEncryptedJsKey"
  .ok ()

/-- Field accesses of the async `get_individual_profile` that precede the
attempt loop and run outside any `try` (lines 236-267): failures here
propagate out of the worker thread and abort the whole run. -/
def asyncStubPrelude (body profile : JVal) : Except String Unit := do
  let misc ← pyIndexKey body "miscellaneousInfo"
  let _ ← pyIndexKey misc "companyId"
  let _ ← pyIndexKey misc "rdxUserId"
  let _ ← pyAttrGet profile "dynamicEncryptedUniqueId"
  let _ ← pyAttrGet body "requirementId"
  let _ ← pyAttrGet profile "dynamicEncryptedJsKey"
  let _ ← pyAttrGetD profile "tupleId" (.str "Unknown")
  .ok ()

/-- Outcome of one sync stub: prelude failures surface as non-request
exceptions with zero HTTP calls, otherwise the retry loop runs. -/
def syncStubRun (body profile : JVal) (o : Nat → DetailResp) (maxRetries : Nat) :
    Except String (Option JVal) × Nat :=
  match syncStubPrelude body profile with
  | .error m => (.error m, 0)
  | .ok _ => getProfileSync o maxRetries

/-- Outcome of one async stub: prelude failures propagate, otherwise the
attempt loop result is an ordinary value (`None` on exhaustion). -/
def asyncStubOutcome (body profile : JVal) (o : Nat → AsyncResp) :
    Except String (Option JVal) × Nat :=
  match asyncStubPrelude body profile with
  | .error m => (.error m, 0)
  | .ok _ =>
    let r := getProfileAsync o
    (.ok r.1, r.2)

/-- Detail loop of the sync `scrape` (lines 315-336): sequential; the
`if detail:` test at line 327 appends a truthy returned record and counts
a falsy one (a `None` from exhausted retries, or a falsy 200 body such as
an empty dict) as one failure; an exception whose text holds
`QUOTA_EXHAUSTED` breaks out of the loop, and any other exception counts
one failure.  Returns the fetched records, the failure count, and the
per-stub HTTP call counts of the stubs actually dispatched. -/
def syncDetailLoop : List (Except String (Option JVal) × Nat) → List JVal × Nat × List Nat
  | [] => ([], 0, [])
  | (res, calls) :: rest =>
    match res with
    | .ok (some d) =>
      let r := syncDetailLoop rest
      if d.truthy then (d :: r.1, r.2.1, calls :: r.2.2)
      else (r.1, r.2.1 + 1, calls :: r.2.2)
    | .ok none =>
      let r := syncDetailLoop rest
      (r.1, r.2.1 + 1, calls :: r.2.2)
    | .error m =>
      if containsSub m "QUOTA_EXHAUSTED" then ([], 0, [calls])
      else
        let r := syncDetailLoop rest
        (r.1, r.2.1 + 1, calls :: r.2.2)

/-- Whether a per-stub outcome trips the sync quota break. -/
def isQuotaOutcome (r : Except String (Option JVal) × Nat) : Bool :=
  match r.1 with
  | .error m => containsSub m "QUOTA_EXHAUSTED"
  | _ => false

/-- Per-result processing of the async detail loop (lines 402-407): a
falsy result or one without a `profile` key counts one failure; otherwise
the profile is normalised and appended.  Chunking five at a time
preserves order and is linearised away; a propagating exception aborts
the run in both renderings. -/
def asyncDetailPhase (now : String) : List (Except String (Option JVal)) →
    Except String (List (List (String × JVal)) × Nat)
  | [] => .ok ([], 0)
  | r :: rest => do
    let res ← r
    match res with
    | none => do
      let pr ← asyncDetailPhase now rest
      .ok (pr.1, pr.2 + 1)
    | some v =>
      if v.truthy then do
        let hasP ← pyContainsStr v "profile"
        if hasP then do
          let pv ← pyIndexKey v "profile"
          let formatted ← formatProfile now pv
          let pr ← asyncDetailPhase now rest
          .ok (formatted :: pr.1, pr.2)
        else do
          let pr ← asyncDetailPhase now rest
          .ok (pr.1, pr.2 + 1)
      else do
        let pr ← asyncDetailPhase now rest
        .ok (pr.1, pr.2 + 1)

/- ### Session and pagination -/

/-- Sync `initial_search` (lines 145-182): a failure status raises via
`raise_for_status`, a JSON decode failure propagates, and a falsy `sid`
or `sidGroupId` raises `ValueError`; on success the `tuples` and
`totalResumes` values are returned. -/
def syncInitialSearch (net : AsyncResp) : Except String (JVal × JVal) :=
  match net with
  | .exn m => .error m
  | .resp s b =>
    if 400 ≤ s && s < 600 then .error "HTTPError: raise_for_status"
    else
      match b with
      | .error m => .error m
      | .ok data => do
        let sid ← pyAttrGet data "sid"
        let sp ← pyAttrGetD data "searchParams" (.obj [])
        let gid ← pyAttrGet sp "sidGroupId"
        if !sid.truthy || !gid.truthy then .error "Failed to extract session data"
        else do
          let t ← pyAttrGetD data "tuples" (.arr [])
          let tot ← pyAttrGetD data "totalResumes" (.num 0)
          .ok (t, tot)

/-- Async `initial_search` (lines 188-230): a non-200 status raises
`HTTPException`, a JSON failure raises, and a falsy `sid` raises
`ValueError`; `sidGroupId` is stored but not checked. -/
def asyncInitialSearch (net : AsyncResp) : Except String (JVal × JVal) :=
  match net with
  | .exn m => .error m
  | .resp s b =>
    if s != 200 then .error "Search failed"
    else
      match b with
      | .error m => .error m
      | .ok data => do
        let sid ← pyAttrGet data "sid"
        let sp ← pyAttrGetD data "searchParams" (.obj [])
        let _ ← pyAttrGet sp "sidGroupId"
        if !sid.truthy then .error "Could not find sid in search response"
        else do
          let t ← pyAttrGetD data "tuples" (.arr [])
          let tot ← pyAttrGetD data "totalResumes" (.num 0)
          .ok (t, tot)

/-- Body accesses of the sync `get_page` payload (lines 195-204), all
plain indexing; failures propagate to the outer `scrape` handler. -/
def syncPagePrelude (body : JVal) : Except String Unit := do
  let misc ← pyIndexKey body "miscellaneousInfo"
  let _ ← pyIndexKey misc "companyId"
  let _ ← pyIndexKey misc "rdxUserId"
  let _ ← pyIndexKey misc "rdxUserName"
  .ok ()

/-- Body accesses of the async `get_page` payload (lines 301-310);
`rdxUserName` is read with `.get` there. -/
def asyncPagePrelude (body : JVal) : Except String Unit := do
  let misc ← pyIndexKey body "miscellaneousInfo"
  let _ ← pyIndexKey misc "companyId"
  let _ ← pyIndexKey misc "rdxUserId"
  let _ ← pyAttrGet misc "rdxUserName"
  .ok ()

/-- Transport part of the sync `get_page` (lines 206-221): request
exceptions and failure statuses yield `[]` through the
`except RequestException` handler, but a JSON decode failure — not a
`RequestException` — propagates; a 200 dict body yields its `tuples`
value (default `[]`), a non-dict body raises `AttributeError`. -/
def getPageSync (net : AsyncResp) : Except String JVal :=
  match net with
  | .exn _ => .ok (.arr [])
  | .resp s b =>
    if 400 ≤ s && s < 600 then .ok (.arr [])
    else
      match b with
      | .error m => .error m
      | .ok data => pyAttrGetD data "tuples" (.arr [])

/-- Transport part of the async `get_page` (lines 312-322): the bare
`except` swallows every failure into `[]`; only a 200 dict body
contributes its `tuples`. -/
def getPageAsync (net : AsyncResp) : JVal :=
  match net with
  | .exn _ => .arr []
  | .resp s b =>
    if s == 200 then
      match b with
      | .ok (.obj fs) => pyGetFD fs "tuples" (.arr [])
      | _ => .arr []
    else .arr []

/-- Pagination loop of the sync `scrape` after the first dispatched page
(lines 303-309): each page call extends the accumulator and the loop
breaks once `max_results` is reached.  Returns the extension result and
the dispatched page numbers. -/
def syncPageLoopGo (maxR : Nat) (pageNet : Nat → AsyncResp) (body : JVal) (acc : List JVal) :
    List Nat → Except String (List JVal) × List Nat
  | [] => (.ok acc, [])
  | p :: rest =>
    match syncPagePrelude body with
    | .error m => (.error m, [])
    | .ok _ =>
      match getPageSync (pageNet p) with
      | .error m => (.error m, [p])
      | .ok tuplesJ =>
        match pyIterElems tuplesJ with
        | .error m => (.error m, [p])
        | .ok ext =>
          let acc2 := acc ++ ext
          if maxR ≤ acc2.length then (.ok acc2, [p])
          else
            let r := syncPageLoopGo maxR pageNet body acc2 rest
            (r.1, p :: r.2)

/-- Page numbers `range(2, pages_needed + 1)` planned by the sync
`scrape`, with `pages_needed = min(max_results // 50, 10)` (line 301). -/
def syncPagesPlanned (maxR : Nat) : List Nat :=
  List.range' 2 (min (maxR / 50) 10 - 1)

/-- Stub collection of the sync `scrape` (lines 295-313): take the
initial tuples, fetch pages `2..pages_needed` with
`pages_needed = min(max_results // 50, 10)` breaking once enough stubs
are held, then truncate to `max_results`.  When no page iteration runs
the truncation is a plain Python slice of the original value; otherwise
the first `.extend` requires the initial tuples to be an actual list
(checked after the first page call has been dispatched, as in the
source). -/
def syncCollect (maxR : Nat) (tuples0 body : JVal) (pageNet : Nat → AsyncResp) :
    Except String (List JVal) × List Nat :=
  match syncPagesPlanned maxR with
  | [] => (pySliceTake maxR tuples0, [])
  | p :: rest =>
    match syncPagePrelude body with
    | .error m => (.error m, [])
    | .ok _ =>
      match getPageSync (pageNet p) with
      | .error m => (.error m, [p])
      | .ok tuplesJ =>
        match tuples0 with
        | .arr xs =>
          match pyIterElems tuplesJ with
          | .error m => (.error m, [p])
          | .ok ext =>
            let acc2 := xs ++ ext
            if maxR ≤ acc2.length then (.ok (acc2.take maxR), [p])
            else
              match syncPageLoopGo maxR pageNet body acc2 rest with
              | (.ok acc, ds) => (.ok (acc.take maxR), p :: ds)
              | (.error m, ds) => (.error m, p :: ds)
        | _ => (.error "AttributeError: object has no attribute extend", [p])

/-- Page-number computation of the async `run` (lines 359-365): from the
50 first-page results, append page indices while below both
`max_results` and `total_resumes`.  Each iteration advances `current` by
50, so `maxR` units of fuel always suffice. -/
def asyncPageNumsGo (maxR totalN : Nat) : Nat → Nat → Nat → List Nat
  | 0, _, _ => []
  | fuel + 1, current, pageIdx =>
    if current < maxR && current < totalN then
      pageIdx :: asyncPageNumsGo maxR totalN fuel (current + 50) (pageIdx + 1)
    else []

/-- Additional page numbers fetched by the async `run`, guarded by
`MAX_REQUESTED > 50 and total_resumes > 50` (line 350). -/
def asyncPageNums (maxR totalN : Nat) : List Nat :=
  if 50 < maxR && 50 < totalN then asyncPageNumsGo maxR totalN maxR 50 2 else []

/-- Pagination loop of the async `run` (lines 371-383): every computed
page is fetched — there is no early break — and each result is spliced
in by `list.extend`.  Returns the extension result and the number of
page calls made. -/
def asyncPageLoopGo (pageNet : Nat → AsyncResp) (body : JVal) (acc : List JVal) :
    List Nat → Except String (List JVal) × Nat
  | [] => (.ok acc, 0)
  | p :: rest =>
    match asyncPagePrelude body with
    | .error m => (.error m, 0)
    | .ok _ =>
      match pyIterElems (getPageAsync (pageNet p)) with
      | .error m => (.error m, 1)
      | .ok ext =>
        let r := asyncPageLoopGo pageNet body (acc ++ ext) rest
        (r.1, r.2 + 1)

/-- Stub collection of the async `run` (lines 342-387): pagination only
when both the request and the supply exceed 50 — comparing a non-numeric
`totalResumes` raises — then truncation to `max_results` (a plain slice
when no pagination ran). -/
def asyncCollect (maxR : Nat) (tuples0 totalJ body : JVal) (pageNet : Nat → AsyncResp) :
    Except String (List JVal) × Nat :=
  if 50 < maxR then
    match totalJ with
    | .num n =>
      if 50 < n then
        match tuples0 with
        | .arr xs =>
          match asyncPageLoopGo pageNet body xs (asyncPageNumsGo maxR n.toNat maxR 50 2) with
          | (.ok acc, k) => (.ok (acc.take maxR), k)
          | (.error m, k) => (.error m, k)
        | _ => (.error "AttributeError: object has no attribute extend", 0)
      else (pySliceTake maxR tuples0, 0)
    | .bool _ => (pySliceTake maxR tuples0, 0)
    | _ => (.error "TypeError: comparison not supported", 0)
  else (pySliceTake maxR tuples0, 0)

/- ### Orchestrators -/

/-- Success envelope of the sync `scrape` (lines 345-351); the elapsed
time is real-clock and not modelled. -/
structure SyncEnvelope where
  total_fetched : Nat
  total_failed : Nat
  profiles : List JVal

/-- Result of a sync run: the success envelope, or the error envelope
(`{'success': False, 'error': ..., 'profiles': []}`, lines 353-359). -/
inductive SyncResult where
  | ok (env : SyncEnvelope)
  | fail (msg : String)

/-- Implements the sync `scrape` (lines 285-359) end to end: parse,
initial search, pagination, sequential detail fetch with
`max_retries = 2`, envelope.  The second component counts the HTTP calls
issued. -/
def syncScrape (raw : String) (jsonParse : String → Option JVal) (searchNet : AsyncResp)
    (pageNet : Nat → AsyncResp) (detailNet : Nat → Nat → DetailResp) (maxR : Nat) :
    SyncResult × Nat :=
  match parseCurlSync raw jsonParse with
  | .error m => (.fail m, 0)
  | .ok d =>
    match syncInitialSearch searchNet with
    | .error m => (.fail m, 1)
    | .ok tt =>
      let c := syncCollect maxR tt.1 d.body pageNet
      match c.1 with
      | .error m => (.fail m, 1 + c.2.length)
      | .ok stubs =>
        let outs := stubs.mapIdx (fun i profile => syncStubRun d.body profile (detailNet i) 2)
        let r := syncDetailLoop outs
        (.ok ⟨r.1.length, r.2.1, r.1⟩, 1 + c.2.length + r.2.2.sum)

/-- Success envelope of the async `run` (lines 413-422). -/
structure AsyncEnvelope where
  totalCandidates : JVal
  candidates : List (List (String × JVal))
  requested : Nat
  fetched_count : Nat
  failed_count : Nat
  pages_fetched : Nat

/-- Result of an async run: the parse-failure envelope
(`{'success': False, 'error': 'CURL Parsing Error: ...'}`, line 332), a
propagated exception (`HTTPException` and friends), or the envelope. -/
inductive AsyncRunResult where
  | failEnv (msg : String)
  | raised (msg : String)
  | ok (env : AsyncEnvelope)

/-- Implements the async `run` (lines 325-422) as the source actually
executes: a parse failure returns the error envelope (line 332); otherwise
`await asyncio.to_thread(self.initial_search)` at line 337 calls the
`async def initial_search` (line 188) in a worker thread, which merely
creates the coroutine object and returns it un-awaited, so
`search_res.get` at line 342 — outside the `try` — raises
`AttributeError` on every run, before any network call: the search,
pagination and detail phases are unreachable from `run`.  The oracle
parameters are kept for a uniform interface; none is consulted. -/
def asyncRun (raw : String) (jsonParse : String → Option JVal) (_now : String) (_maxR : Nat)
    (_searchNet : AsyncResp) (_pageNet : Nat → AsyncResp) (_detailNet : Nat → Nat → AsyncResp) :
    AsyncRunResult × Nat :=
  match parseCurlAsync raw jsonParse with
  | .error m => (.failEnv ("CURL Parsing Error: " ++ m), 0)
  | .ok _ => (.raised "AttributeError: coroutine object has no attribute get", 0)

/-- The async `run` (lines 325-422) as it would execute were the
`initial_search` coroutine awaited: parse, initial search, pagination,
chunked detail fetch, envelope.  This idealisation exercises the phase
logic that the actual `asyncRun` never reaches (each phase function is
individually real — `initial_search`, `get_page` and
`get_individual_profile` are callable on their own), and any bound proven
of it is vacuously true of the actual `run`, which raises first.
Transaction ids decorate only the sent headers and do not influence
outcomes; the per-call header discipline is modelled separately by the
step functions below.  The second component counts HTTP calls; in runs
that raise mid-chunk the Python thread pool may have issued calls the
linearised model does not count, and no claim reads the call count of a
raised run. -/
def asyncRunAwaited (raw : String) (jsonParse : String → Option JVal) (now : String) (maxR : Nat)
    (searchNet : AsyncResp) (pageNet : Nat → AsyncResp) (detailNet : Nat → Nat → AsyncResp) :
    AsyncRunResult × Nat :=
  match parseCurlAsync raw jsonParse with
  | .error m => (.failEnv ("CURL Parsing Error: " ++ m), 0)
  | .ok d =>
    match asyncInitialSearch searchNet with
    | .error m => (.raised m, 1)
    | .ok tt =>
      let c := asyncCollect maxR tt.1 tt.2 d.body pageNet
      match c.1 with
      | .error m => (.raised m, 1 + c.2)
      | .ok stubs =>
        let outs := stubs.mapIdx (fun i profile => asyncStubOutcome d.body profile (detailNet i))
        let calls := (outs.map (fun o => o.2)).sum
        match asyncDetailPhase now (outs.map (fun o => o.1)) with
        | .error m => (.raised m, 1 + c.2 + calls)
        | .ok pr =>
          (.ok ⟨tt.2, pr.1, maxR, pr.1.length, pr.2, 1 + c.2⟩, 1 + c.2 + calls)

/- ### Per-call header discipline (async `NaukriScraper` object state) -/

/-- The long-lived object state written by `parse_curl`
(`self.url`, `self.headers`, `self.body`, `self.sid`,
`self.sid_group_id`). -/
structure ScraperState where
  url : Option String
  headers : List (String × String)
  body : JVal
  sid : JVal
  sidGroupId : JVal

/-- Async `initial_search` as a state transformer (lines 188-230):
returns the headers actually sent — `self.headers.copy()` with the fresh
`x-transaction-id` — the updated object state (only `self.sid` /
`self.sid_group_id` are written; response-cookie refresh is disabled in
the source) and the outcome. -/
def initialSearchStep (st : ScraperState) (tx : String) (net : AsyncResp) :
    List (String × String) × ScraperState × Except String (JVal × JVal) :=
  let sent := dictInsert st.headers "x-transaction-id" tx
  match net with
  | .exn m => (sent, st, .error m)
  | .resp s b =>
    if s != 200 then (sent, st, .error "Search failed")
    else
      match b with
      | .error m => (sent, st, .error m)
      | .ok data =>
        match pyAttrGet data "sid" with
        | .error m => (sent, st, .error m)
        | .ok sid =>
          let st1 := { st with sid := sid }
          match pyAttrGetD data "searchParams" (.obj []) with
          | .error m => (sent, st1, .error m)
          | .ok sp =>
            match pyAttrGet sp "sidGroupId" with
            | .error m => (sent, st1, .error m)
            | .ok gid =>
              let st2 := { st1 with sidGroupId := gid }
              if !sid.truthy then (sent, st2, .error "Could not find sid in search response")
              else
                match pyAttrGetD data "tuples" (.arr []) with
                | .error m => (sent, st2, .error m)
                | .ok t =>
                  match pyAttrGetD data "totalResumes" (.num 0) with
                  | .error m => (sent, st2, .error m)
                  | .ok tot => (sent, st2, .ok (t, tot))

/-- Python truthiness of the optional `self.url` string. -/
def optStrTruthy : Option String → Bool
  | some u => u != ""
  | none => false

/-- Async `get_page` as a step (lines 286-322): the url/sid guard may
return `[]` with no headers built and no request; otherwise the sent
headers are a fresh copy with a new transaction id and the object state
is untouched. -/
def getPageStep (st : ScraperState) (tx : String) (net : AsyncResp) :
    Option (List (String × String)) × ScraperState × Except String JVal :=
  if !optStrTruthy st.url || !st.sid.truthy then (none, st, .ok (.arr []))
  else
    let sent := dictInsert st.headers "x-transaction-id" tx
    match asyncPagePrelude st.body with
    | .error m => (some sent, st, .error m)
    | .ok _ => (some sent, st, .ok (getPageAsync net))

/-- Async `get_individual_profile` as a step (lines 232-284): the payload
prelude precedes the header copy; on success the attempt loop runs.  The
object state is never written. -/
def getProfileStep (st : ScraperState) (profile : JVal) (tx : String) (o : Nat → AsyncResp) :
    Option (List (String × String)) × ScraperState × Except String (Option JVal) :=
  match asyncStubPrelude st.body profile with
  | .error m => (none, st, .error m)
  | .ok _ =>
    let sent := dictInsert st.headers "x-transaction-id" tx
    (some sent, st, .ok (getProfileAsync o).1)


/- ### Auxiliary definitions for the statements -/

/-- A one-character string holding a single quote, used to assemble
concrete cURL templates. -/
def sqs : String := String.singleton sqc

/-- A concrete captured request template: single-quoted URL, a
duplicated custom header (differing in case), and a cookie flag. -/
def sampleCurl : String :=
  "curl " ++ sqs ++ "https://a/search" ++ sqs ++ " -H " ++ sqs ++ "X-Custom: first" ++ sqs ++
  " -H " ++ sqs ++ "x-custom: second" ++ sqs ++ " -b " ++ sqs ++ "k=v" ++ sqs

/-- A concrete captured request template that extends `sampleCurl` with a
`--data-raw` flag.  Its payload is deliberately malformed JSON — the
trailing comma makes `json.loads` fail — so the parsers take the manual
extraction fallback; the `jsonParse` oracle passed alongside it in the
statements accordingly returns `none` on it. -/
def dataCurl : String :=
  sampleCurl ++ " --data-raw " ++ sqs ++
  "\x7b\"requirementId\": \"9\", \"miscellaneousInfo\": \x7b\"companyId\": 7, " ++
  "\"rdxUserId\": \"u\", \"rdxUserName\": \"n\"\x7d,\x7d" ++ sqs

/-- The body document the manual extraction recovers from `dataCurl`. -/
def dataBody : JVal :=
  .obj [("requirementId", .str "9"), ("requirementGroupId", .str "9"),
        ("newCandidatesSearch", .bool false), ("saveSession", .bool true),
        ("miscellaneousInfo", .obj
          [("companyId", .num 7), ("rdxUserId", .str "u"), ("rdxUserName", .str "n")])]

/-- The body of the descriptor a successful sync parse produces (null on a
parse failure), for stating concrete facts about the parsed body. -/
def parsedBodySyncOf (raw : String) (jsonParse : String → Option JVal) : JVal :=
  match parseCurlSync raw jsonParse with
  | .ok d => d.body
  | .error _ => .null

/-- A concrete successful search response carrying two item stubs. -/
def searchOkBody : JVal :=
  .obj [("sid", .str "S1"), ("searchParams", .obj [("sidGroupId", .str "G1")]),
        ("tuples", .arr [.obj [], .obj []]), ("totalResumes", .num 2)]

/-- A concrete successful search response reporting 1050 available
records and no first-page stubs. -/
def searchBigBody : JVal :=
  .obj [("sid", .str "S1"), ("searchParams", .obj [("sidGroupId", .str "G1")]),
        ("tuples", .arr []), ("totalResumes", .num 1050)]

/-- A concrete successful search response reporting a supply of only 10
available records, one of which is on the first page. -/
def searchSmallBody : JVal :=
  .obj [("sid", .str "S1"), ("searchParams", .obj [("sidGroupId", .str "G1")]),
        ("tuples", .arr [.obj []]), ("totalResumes", .num 10)]

/-- A concrete scraper state whose url and sid pass the `get_page` guard
and whose body satisfies the payload preludes. -/
def c10State : ScraperState :=
  ⟨some "https://a/search", [("a", "b")],
   .obj [("requirementId", .str "1"),
         ("miscellaneousInfo", .obj [("companyId", .num 7), ("rdxUserId", .str "r"),
                                     ("rdxUserName", .str "n")])],
   .str "S", .null⟩

/-- Index of the first per-stub outcome that trips the sync quota break,
if any. -/
def firstQuotaIdx : List (Except String (Option JVal) × Nat) → Option Nat
  | [] => none
  | r :: rest =>
    if isQuotaOutcome r then some 0
    else
      match firstQuotaIdx rest with
      | some i => some (i + 1)
      | none => none

/-- Value of the last header match whose normalised key equals `key`
(head of the list is the earliest match). -/
def lastHeaderVal (key : String) : List (List Char × List Char) → Option String
  | [] => none
  | kv :: rest =>
    match lastHeaderVal key rest with
    | some v => some v
    | none =>
      if (lowerCh (trimCh kv.1)).asString == key then some (trimCh kv.2).asString else none

/-- Whether a JSON value is `null`. -/
def JVal.isNullB : JVal → Bool
  | .null => true
  | _ => false

/- ### Lemmas -/

lemma syncDetailLoop_fetchfail (outs : List (Except String (Option JVal) × Nat)) :
    (syncDetailLoop outs).1.length + (syncDetailLoop outs).2.1 =
      match firstQuotaIdx outs with
      | some i => i
      | none => outs.length := by
  induction outs with
  | nil => rfl
  | cons r rest ih =>
    obtain ⟨res, calls⟩ := r
    rcases hr : syncDetailLoop rest with ⟨ps, f, cs⟩
    rw [hr] at ih
    cases res with
    | ok o =>
      cases o with
      | some d =>
        by_cases htr : d.truthy = true
        · cases hq : firstQuotaIdx rest with
          | some i =>
            simp only [hq] at ih
            simp [syncDetailLoop, hr, firstQuotaIdx, isQuotaOutcome, hq, htr]
            have ih2 : ps.length + f = i := ih
            show ps.length + 1 + f = i + 1
            omega
          | none =>
            simp only [hq] at ih
            simp [syncDetailLoop, hr, firstQuotaIdx, isQuotaOutcome, hq, htr]
            have ih2 : ps.length + f = rest.length := ih
            show ps.length + 1 + f = rest.length + 1
            omega
        · cases hq : firstQuotaIdx rest with
          | some i =>
            simp only [hq] at ih
            simp [syncDetailLoop, hr, firstQuotaIdx, isQuotaOutcome, hq, htr]
            have ih2 : ps.length + f = i := ih
            show ps.length + (f + 1) = i + 1
            omega
          | none =>
            simp only [hq] at ih
            simp [syncDetailLoop, hr, firstQuotaIdx, isQuotaOutcome, hq, htr]
            have ih2 : ps.length + f = rest.length := ih
            show ps.length + (f + 1) = rest.length + 1
            omega
      | none =>
        cases hq : firstQuotaIdx rest with
        | some i =>
          simp only [hq] at ih
          simp [syncDetailLoop, hr, firstQuotaIdx, isQuotaOutcome, hq]
          have ih2 : ps.length + f = i := ih
          show ps.length + (f + 1) = i + 1
          omega
        | none =>
          simp only [hq] at ih
          simp [syncDetailLoop, hr, firstQuotaIdx, isQuotaOutcome, hq]
          have ih2 : ps.length + f = rest.length := ih
          show ps.length + (f + 1) = rest.length + 1
          omega
    | error m =>
      by_cases hm : containsSub m "QUOTA_EXHAUSTED" = true
      · simp [syncDetailLoop, firstQuotaIdx, isQuotaOutcome, hm]
      · cases hq : firstQuotaIdx rest with
        | some i =>
          simp only [hq] at ih
          simp [syncDetailLoop, hr, firstQuotaIdx, isQuotaOutcome, hm, hq]
          have ih2 : ps.length + f = i := ih
          show ps.length + (f + 1) = i + 1
          omega
        | none =>
          simp only [hq] at ih
          simp [syncDetailLoop, hr, firstQuotaIdx, isQuotaOutcome, hm, hq]
          have ih2 : ps.length + f = rest.length := ih
          show ps.length + (f + 1) = rest.length + 1
          omega

lemma syncDetailLoop_calls (outs : List (Except String (Option JVal) × Nat)) :
    (syncDetailLoop outs).2.2.length =
      match firstQuotaIdx outs with
      | some i => i + 1
      | none => outs.length := by
  induction outs with
  | nil => rfl
  | cons r rest ih =>
    obtain ⟨res, calls⟩ := r
    rcases hr : syncDetailLoop rest with ⟨ps, f, cs⟩
    rw [hr] at ih
    cases res with
    | ok o =>
      cases o with
      | some d =>
        by_cases htr : d.truthy = true
        · cases hq : firstQuotaIdx rest with
          | some i =>
            simp only [hq] at ih
            simp [syncDetailLoop, hr, firstQuotaIdx, isQuotaOutcome, hq, htr]
            exact ih
          | none =>
            simp only [hq] at ih
            simp [syncDetailLoop, hr, firstQuotaIdx, isQuotaOutcome, hq, htr]
            exact ih
        · cases hq : firstQuotaIdx rest with
          | some i =>
            simp only [hq] at ih
            simp [syncDetailLoop, hr, firstQuotaIdx, isQuotaOutcome, hq, htr]
            exact ih
          | none =>
            simp only [hq] at ih
            simp [syncDetailLoop, hr, firstQuotaIdx, isQuotaOutcome, hq, htr]
            exact ih
      | none =>
        cases hq : firstQuotaIdx rest with
        | some i =>
          simp only [hq] at ih
          simp [syncDetailLoop, hr, firstQuotaIdx, isQuotaOutcome, hq]
          exact ih
        | none =>
          simp only [hq] at ih
          simp [syncDetailLoop, hr, firstQuotaIdx, isQuotaOutcome, hq]
          exact ih
    | error m =>
      by_cases hm : containsSub m "QUOTA_EXHAUSTED" = true
      · simp [syncDetailLoop, firstQuotaIdx, isQuotaOutcome, hm]
      · cases hq : firstQuotaIdx rest with
        | some i =>
          simp only [hq] at ih
          simp [syncDetailLoop, hr, firstQuotaIdx, isQuotaOutcome, hm, hq]
          exact ih
        | none =>
          simp only [hq] at ih
          simp [syncDetailLoop, hr, firstQuotaIdx, isQuotaOutcome, hm, hq]
          exact ih

lemma asyncDetailPhase_count (now : String) :
    ∀ (rs : List (Except String (Option JVal))) (pr : List (List (String × JVal)) × Nat),
      asyncDetailPhase now rs = .ok pr → pr.1.length + pr.2 = rs.length := by
  intro rs
  induction rs with
  | nil =>
    intro pr h
    simp only [asyncDetailPhase] at h
    cases h
    rfl
  | cons r rest ih =>
    intro pr h
    cases r with
    | error m => simp [asyncDetailPhase, Bind.bind, Except.bind] at h
    | ok res =>
      cases res with
      | none =>
        cases hrec : asyncDetailPhase now rest with
        | error m => simp [asyncDetailPhase, hrec, Bind.bind, Except.bind] at h
        | ok pr0 =>
          simp [asyncDetailPhase, hrec, Bind.bind, Except.bind] at h
          have hip := ih pr0 hrec
          have hp : pr = (pr0.1, pr0.2 + 1) := by
            cases h
            rfl
          subst hp
          show pr0.1.length + (pr0.2 + 1) = rest.length + 1
          omega
      | some v =>
        by_cases ht : v.truthy = true
        · cases hc : pyContainsStr v "profile" with
          | error m => simp [asyncDetailPhase, ht, hc, Bind.bind, Except.bind] at h
          | ok b =>
            cases b with
            | true =>
              cases hi : pyIndexKey v "profile" with
              | error m => simp [asyncDetailPhase, ht, hc, hi, Bind.bind, Except.bind] at h
              | ok pv =>
                cases hf : formatProfile now pv with
                | error m =>
                  simp [asyncDetailPhase, ht, hc, hi, hf, Bind.bind, Except.bind] at h
                | ok fm =>
                  cases hrec : asyncDetailPhase now rest with
                  | error m =>
                    simp [asyncDetailPhase, ht, hc, hi, hf, hrec, Bind.bind, Except.bind] at h
                  | ok pr0 =>
                    simp [asyncDetailPhase, ht, hc, hi, hf, hrec, Bind.bind, Except.bind] at h
                    have hip := ih pr0 hrec
                    have hp : pr = (fm :: pr0.1, pr0.2) := by
                      cases h
                      rfl
                    subst hp
                    show (fm :: pr0.1).length + pr0.2 = rest.length + 1
                    simp only [List.length_cons]
                    omega
            | false =>
              cases hrec : asyncDetailPhase now rest with
              | error m => simp [asyncDetailPhase, ht, hc, hrec, Bind.bind, Except.bind] at h
              | ok pr0 =>
                simp [asyncDetailPhase, ht, hc, hrec, Bind.bind, Except.bind] at h
                have hip := ih pr0 hrec
                have hp : pr = (pr0.1, pr0.2 + 1) := by
                  cases h
                  rfl
                subst hp
                show pr0.1.length + (pr0.2 + 1) = rest.length + 1
                omega
        · cases hrec : asyncDetailPhase now rest with
          | error m => simp [asyncDetailPhase, ht, hrec, Bind.bind, Except.bind] at h
          | ok pr0 =>
            simp [asyncDetailPhase, ht, hrec, Bind.bind, Except.bind] at h
            have hip := ih pr0 hrec
            have hp : pr = (pr0.1, pr0.2 + 1) := by
              cases h
              rfl
            subst hp
            show pr0.1.length + (pr0.2 + 1) = rest.length + 1
            omega

lemma syncDetailLoop_fetched_le (outs : List (Except String (Option JVal) × Nat)) :
    (syncDetailLoop outs).1.length ≤ outs.length := by
  induction outs with
  | nil => exact Nat.le_refl 0
  | cons r rest ih =>
    obtain ⟨res, calls⟩ := r
    cases res with
    | ok o =>
      cases o with
      | some d =>
        simp only [syncDetailLoop]
        by_cases htr : d.truthy = true
        · simp only [htr, reduceIte, List.length_cons]
          exact Nat.succ_le_succ ih
        · simp only [htr, Bool.false_eq_true, reduceIte, List.length_cons]
          exact Nat.le_succ_of_le ih
      | none =>
        simp only [syncDetailLoop, List.length_cons]
        exact Nat.le_succ_of_le ih
    | error m =>
      simp only [syncDetailLoop]
      by_cases hm : containsSub m "QUOTA_EXHAUSTED" = true
      · simp [hm]
      · simp only [hm, Bool.false_eq_true, reduceIte, List.length_cons]
        exact Nat.le_succ_of_le ih

lemma pySliceTake_len_le (n : Nat) (v : JVal) (l : List JVal) (h : pySliceTake n v = .ok l) :
    l.length ≤ n := by
  cases v with
  | arr xs =>
    simp only [pySliceTake] at h
    cases h
    exact List.length_take_le n xs
  | str s =>
    simp only [pySliceTake] at h
    cases h
    rw [List.length_map]
    exact List.length_take_le n s.data
  | null => simp [pySliceTake] at h
  | bool b => simp [pySliceTake] at h
  | num m => simp [pySliceTake] at h
  | obj fs => simp [pySliceTake] at h

lemma syncCollect_ok_len (maxR : Nat) (t b : JVal) (pn : Nat → AsyncResp)
    (stubs : List JVal) (ds : List Nat) (h : syncCollect maxR t b pn = (.ok stubs, ds)) :
    stubs.length ≤ maxR := by
  unfold syncCollect at h
  cases hpl : syncPagesPlanned maxR with
  | nil =>
    simp only [hpl] at h
    have h1 : pySliceTake maxR t = Except.ok stubs := congrArg Prod.fst h
    exact pySliceTake_len_le maxR t stubs h1
  | cons p rest =>
    simp only [hpl] at h
    cases hpre : syncPagePrelude b with
    | error m =>
      simp only [hpre] at h
      cases congrArg Prod.fst h
    | ok u =>
      simp only [hpre] at h
      cases hpg : getPageSync (pn p) with
      | error m =>
        simp only [hpg] at h
        cases congrArg Prod.fst h
      | ok tJ =>
        simp only [hpg] at h
        cases t with
        | arr xs =>
          cases hit : pyIterElems tJ with
          | error m =>
            simp only [hit] at h
            cases congrArg Prod.fst h
          | ok ext =>
            simp only [hit] at h
            repeat' split at h
            all_goals
              have h1 : _ = Except.ok stubs := congrArg Prod.fst h
            all_goals
              first
                | (cases h1; exact List.length_take_le _ _)
                | cases h1
        | null => cases congrArg Prod.fst h
        | bool c => cases congrArg Prod.fst h
        | num n => cases congrArg Prod.fst h
        | str sv => cases congrArg Prod.fst h
        | obj fs => cases congrArg Prod.fst h

lemma asyncCollect_ok_len (maxR : Nat) (t tot b : JVal) (pn : Nat → AsyncResp)
    (stubs : List JVal) (k : Nat) (h : asyncCollect maxR t tot b pn = (.ok stubs, k)) :
    stubs.length ≤ maxR := by
  unfold asyncCollect at h
  repeat' split at h
  all_goals
    have h1 : _ = Except.ok stubs := congrArg Prod.fst h
  all_goals
    first
      | exact pySliceTake_len_le maxR t stubs h1
      | (cases h1; exact List.length_take_le _ _)
      | cases h1

lemma syncScrape_ok_profiles (raw : String) (jp : String → Option JVal) (snet : AsyncResp)
    (pnet : Nat → AsyncResp) (dnet : Nat → Nat → DetailResp) (maxR : Nat)
    (env : SyncEnvelope) (k : Nat)
    (h : syncScrape raw jp snet pnet dnet maxR = (.ok env, k)) :
    env.profiles.length ≤ maxR := by
  unfold syncScrape at h
  cases hp : parseCurlSync raw jp with
  | error m =>
    simp only [hp] at h
    cases congrArg Prod.fst h
  | ok d =>
    simp only [hp] at h
    cases hs : syncInitialSearch snet with
    | error m =>
      simp only [hs] at h
      cases congrArg Prod.fst h
    | ok tt =>
      simp only [hs] at h
      cases hc1 : (syncCollect maxR tt.1 d.body pnet).1 with
      | error m =>
        simp only [hc1] at h
        cases congrArg Prod.fst h
      | ok stubs =>
        simp only [hc1] at h
        rw [Prod.mk.injEq] at h
        obtain ⟨h1, -⟩ := h
        cases h1
        have hc : syncCollect maxR tt.1 d.body pnet =
            (.ok stubs, (syncCollect maxR tt.1 d.body pnet).2) := by
          rw [← hc1]
        have hlen : stubs.length ≤ maxR :=
          syncCollect_ok_len maxR tt.1 d.body pnet stubs _ hc
        have hle := syncDetailLoop_fetched_le
          (stubs.mapIdx fun i profile => syncStubRun d.body profile (dnet i) 2)
        rw [List.length_mapIdx] at hle
        exact Nat.le_trans hle hlen

lemma asyncRunAwaited_ok_candidates (raw : String) (jp : String → Option JVal) (now : String)
    (maxR : Nat) (snet : AsyncResp) (pnet : Nat → AsyncResp) (dnet : Nat → Nat → AsyncResp)
    (env : AsyncEnvelope) (k : Nat)
    (h : asyncRunAwaited raw jp now maxR snet pnet dnet = (.ok env, k)) :
    env.candidates.length ≤ maxR := by
  unfold asyncRunAwaited at h
  cases hp : parseCurlAsync raw jp with
  | error m =>
    simp only [hp] at h
    cases congrArg Prod.fst h
  | ok d =>
    simp only [hp] at h
    cases hs : asyncInitialSearch snet with
    | error m =>
      simp only [hs] at h
      cases congrArg Prod.fst h
    | ok tt =>
      simp only [hs] at h
      cases hc1 : (asyncCollect maxR tt.1 tt.2 d.body pnet).1 with
      | error m =>
        simp only [hc1] at h
        cases congrArg Prod.fst h
      | ok stubs =>
        simp only [hc1] at h
        cases hph : asyncDetailPhase now
            ((stubs.mapIdx fun i profile => asyncStubOutcome d.body profile (dnet i)).map
              fun o => o.1) with
        | error m =>
          simp only [hph] at h
          cases congrArg Prod.fst h
        | ok pr =>
          simp only [hph] at h
          rw [Prod.mk.injEq] at h
          obtain ⟨h1, -⟩ := h
          cases h1
          have hcount := asyncDetailPhase_count now _ pr hph
          rw [List.length_map, List.length_mapIdx] at hcount
          have hc : asyncCollect maxR tt.1 tt.2 d.body pnet =
              (.ok stubs, (asyncCollect maxR tt.1 tt.2 d.body pnet).2) := by
            rw [← hc1]
          have hlen : stubs.length ≤ maxR :=
            asyncCollect_ok_len maxR tt.1 tt.2 d.body pnet stubs _ hc
          show pr.1.length ≤ maxR
          omega

/- ### Claim theorems -/

/-- C1 (amended).  In the async pipeline the envelope counts always
balance: whenever the detail phase completes, `fetched_count +
failed_count` equals the number of stubs processed.  In the sync pipeline
the identity `total_fetched + total_failed = number of stubs` holds only
for runs in which the circuit breaker never trips; when the breaker trips
at stub index `i`, `total_fetched + total_failed = i` — neither the
tripping stub nor the not-yet-started stubs are counted as failed. -/
theorem c1_envelope_counts :
    (∀ outs : List (Except String (Option JVal) × Nat),
      (syncDetailLoop outs).1.length + (syncDetailLoop outs).2.1 =
        match firstQuotaIdx outs with
        | some i => i
        | none => outs.length)
    ∧ (∀ (now : String) (rs : List (Except String (Option JVal)))
        (pr : List (List (String × JVal)) × Nat),
        asyncDetailPhase now rs = .ok pr → pr.1.length + pr.2 = rs.length) :=
  ⟨syncDetailLoop_fetchfail, asyncDetailPhase_count⟩

/-- Witness for C1 at concrete inputs: a no-trip sync loop and a
one-failure async phase. -/
theorem c1_envelope_counts_witness :
    ((syncDetailLoop [(.ok (some .null), 1), (.ok none, 1)]).1.length +
        (syncDetailLoop [(.ok (some .null), 1), (.ok none, 1)]).2.1 =
      match firstQuotaIdx [(.ok (some .null), 1), (.ok none, 1)] with
      | some i => i
      | none => 2)
    ∧ (([] : List (List (String × JVal))).length + 1 =
        ([Except.ok none] : List (Except String (Option JVal))).length) :=
  ⟨c1_envelope_counts.1 [(.ok (some .null), 1), (.ok none, 1)],
   c1_envelope_counts.2 "T" [.ok none] ([], 1) rfl⟩

set_option maxRecDepth 100000 in
/-- Counterexample for C1 as stated: in a sync run whose first stub trips
the quota circuit breaker, the envelope reports `total_fetched = 0` and
`total_failed = 0` although two stubs were collected — the aborted stubs
are not counted as failed, so `fetchedCount + failedCount ≠ number of
stubs collected`.  The template carries a data flag (its malformed payload
is recovered by the manual fallback), so the detail preludes succeed and
the first detail call is really dispatched; its 403 trips the breaker
after 2 HTTP calls (search + one detail). -/
theorem c1_counterexample :
    syncDetailLoop [(.error "QUOTA_EXHAUSTED", 1), (.ok (some .null), 1)] = ([], 0, [1])
    ∧ parsedBodySyncOf dataCurl (fun _ => none) = dataBody
    ∧ syncScrape dataCurl (fun _ => none) (.resp 200 (.ok searchOkBody))
        (fun _ => .exn "e") (fun _ => fun _ => .reqErr "403 Client Error: Forbidden for url: u") 10
      = (.ok ⟨0, 0, []⟩, 2)
    ∧ (0 : Nat) + 0 ≠ 2 :=
  ⟨rfl, rfl, rfl, by decide⟩

/-- C2 (amended).  In the sync pipeline the circuit breaker is
monotone: the per-stub call list of the detail loop ends exactly at the
first quota-signalling outcome (no stub after the trip is dispatched),
and a tripped run still returns a success envelope with partial results.
Detection, however, fires only on exception messages containing a
`QUOTA`/`Captcha`/`403` marker — quota markers inside successful response
bodies do not trip the breaker (see the counterexample), and the async
pipeline has no breaker at all. -/
theorem c2_breaker_monotone :
    (∀ outs : List (Except String (Option JVal) × Nat),
      (syncDetailLoop outs).2.2.length =
        match firstQuotaIdx outs with
        | some i => i + 1
        | none => outs.length)
    ∧ (∀ (raw : String) (jp : String → Option JVal) (snet : AsyncResp)
        (pnet : Nat → AsyncResp) (dnet : Nat → Nat → DetailResp) (maxR : Nat)
        (d : Descriptor) (tt : JVal × JVal) (stubs : List JVal),
        parseCurlSync raw jp = .ok d →
        syncInitialSearch snet = .ok tt →
        (syncCollect maxR tt.1 d.body pnet).1 = .ok stubs →
        ∃ env, (syncScrape raw jp snet pnet dnet maxR).1 = SyncResult.ok env) := by
  constructor
  · exact syncDetailLoop_calls
  · intro raw jp snet pnet dnet maxR d tt stubs hp hs hc
    unfold syncScrape
    simp only [hp, hs, hc]
    exact ⟨_, rfl⟩

/-- Witness for C2: a concrete sync run whose first stub trips the
breaker still produces a success envelope, and its call list stops at the
tripping stub. -/
theorem c2_breaker_monotone_witness :
    ((syncDetailLoop [(.error "QUOTA_EXHAUSTED", 1), (.ok (some .null), 1)]).2.2.length =
      match firstQuotaIdx [(.error "QUOTA_EXHAUSTED", 1), (.ok (some .null), 1)] with
      | some i => i + 1
      | none => 2)
    ∧ (∃ env, (syncScrape sampleCurl (fun _ => none) (.resp 200 (.ok searchOkBody))
        (fun _ => .exn "e") (fun _ => fun _ => .reqErr "403 Client Error: Forbidden for url: u")
        10).1 = SyncResult.ok env) :=
  ⟨c2_breaker_monotone.1 [(.error "QUOTA_EXHAUSTED", 1), (.ok (some .null), 1)],
   c2_breaker_monotone.2 sampleCurl (fun _ => none) (.resp 200 (.ok searchOkBody))
     (fun _ => .exn "e") (fun _ => fun _ => .reqErr "403 Client Error: Forbidden for url: u")
     10 _ _ _ rfl rfl rfl⟩

/-- Counterexample for C2 as stated: a successful (HTTP 200) detail
response whose body carries the quota marker does not trip anything — the
next stub is still dispatched (the call list has two entries), because
detection only inspects exception messages. -/
theorem c2_counterexample :
    containsSub "QUOTA limit reached" "QUOTA" = true
    ∧ getProfileSync (fun _ => .ok (.obj [("note", .str "QUOTA limit reached")])) 2
      = (.ok (some (.obj [("note", .str "QUOTA limit reached")])), 1)
    ∧ (syncDetailLoop
        [getProfileSync (fun _ => .ok (.obj [("note", .str "QUOTA limit reached")])) 2,
         getProfileSync (fun _ => .ok (.obj [])) 2]).2.2 = [1, 1] :=
  ⟨by decide, rfl, rfl⟩

/-- C3 (confirmed).  Both pipelines return at most `max_results`
records: the stub list is truncated to `max_results` before the detail
phase and each stub contributes at most one record.  The async half is
stated over the awaited idealisation `asyncRunAwaited` — the stronger
reading, since the actual `run` raises before producing any envelope and
satisfies the bound vacuously. -/
theorem c3_records_le_target :
    (∀ (raw : String) (jp : String → Option JVal) (snet : AsyncResp)
      (pnet : Nat → AsyncResp) (dnet : Nat → Nat → DetailResp) (maxR : Nat)
      (env : SyncEnvelope) (k : Nat),
      syncScrape raw jp snet pnet dnet maxR = (.ok env, k) → env.profiles.length ≤ maxR)
    ∧ (∀ (raw : String) (jp : String → Option JVal) (now : String) (maxR : Nat)
      (snet : AsyncResp) (pnet : Nat → AsyncResp) (dnet : Nat → Nat → AsyncResp)
      (env : AsyncEnvelope) (k : Nat),
      asyncRunAwaited raw jp now maxR snet pnet dnet = (.ok env, k) →
        env.candidates.length ≤ maxR) :=
  ⟨syncScrape_ok_profiles, asyncRunAwaited_ok_candidates⟩

/-- Witness for C3 at concrete complete runs of both pipelines. -/
theorem c3_records_le_target_witness :
    ((SyncEnvelope.mk 0 2 []).profiles.length ≤ 10)
    ∧ ((AsyncEnvelope.mk (.num 1050) [] 10 0 0 1).candidates.length ≤ 10) :=
  ⟨c3_records_le_target.1 sampleCurl (fun _ => none) (.resp 200 (.ok searchOkBody))
      (fun _ => .exn "e") (fun _ => fun _ => .reqErr "403 Client Error: Forbidden for url: u")
      10 ⟨0, 2, []⟩ 1 rfl,
   c3_records_le_target.2 sampleCurl (fun _ => none) "T" 10 (.resp 200 (.ok searchBigBody))
      (fun _ => .exn "x") (fun _ => fun _ => .exn "x") ⟨.num 1050, [], 10, 0, 0, 1⟩ 1 rfl⟩

lemma dictFind_mapAssign_self (rest : List (String × String)) (k v : String) :
    dictFind (rest.map (fun q => if q.1 == k then (q.1, v) else q)) k =
      if rest.any (fun q => q.1 == k) then some v else none := by
  induction rest with
  | nil => simp [dictFind]
  | cons p rest ih =>
    obtain ⟨a, b⟩ := p
    by_cases hak : a = k
    · subst hak
      simp [dictFind, List.find?]
    · have hb : (a == k) = false := beq_eq_false_iff_ne.mpr hak
      simp only [List.map_cons, hb, Bool.false_eq_true, reduceIte, List.any_cons,
        Bool.false_or, dictFind, List.find?]
      exact ih

lemma dictFind_mapAssign_ne (rest : List (String × String)) (k v k2 : String) (hne : k2 ≠ k) :
    dictFind (rest.map (fun q => if q.1 == k then (q.1, v) else q)) k2 = dictFind rest k2 := by
  induction rest with
  | nil => rfl
  | cons p rest ih =>
    obtain ⟨a, b⟩ := p
    by_cases hak : a = k
    · have h2 : (a == k2) = false := beq_eq_false_iff_ne.mpr (hak ▸ Ne.symm hne)
      have h1 : (a == k) = true := beq_iff_eq.mpr hak
      simp only [List.map_cons, h1, reduceIte, dictFind, List.find?, h2]
      exact ih
    · have hb : (a == k) = false := beq_eq_false_iff_ne.mpr hak
      simp only [List.map_cons, hb, Bool.false_eq_true, reduceIte]
      by_cases h2 : a = k2
      · subst h2
        simp [dictFind, List.find?]
      · have h2b : (a == k2) = false := beq_eq_false_iff_ne.mpr h2
        simp only [dictFind, List.find?, h2b]
        exact ih

lemma dictFind_dictInsert_self (hs : List (String × String)) (k v : String) :
    dictFind (dictInsert hs k v) k = some v := by
  unfold dictInsert
  cases hmem : hs.any (fun p => p.1 == k) with
  | true =>
    simp only [reduceIte]
    rw [dictFind_mapAssign_self, hmem]
    rfl
  | false =>
    simp only [Bool.false_eq_true, reduceIte]
    have hnone : hs.find? (fun p => p.1 == k) = none := by
      rw [List.find?_eq_none]
      intro x hx
      have := List.any_eq_false.mp hmem x hx
      simpa using this
    simp [dictFind, List.find?_append, hnone, List.find?]

lemma dictFind_dictInsert_ne (hs : List (String × String)) (k v k2 : String) (hne : k2 ≠ k) :
    dictFind (dictInsert hs k v) k2 = dictFind hs k2 := by
  unfold dictInsert
  cases hmem : hs.any (fun p => p.1 == k) with
  | true =>
    simp only [reduceIte]
    exact dictFind_mapAssign_ne hs k v k2 hne
  | false =>
    simp only [Bool.false_eq_true, reduceIte]
    have hk2 : (k == k2) = false := beq_eq_false_iff_ne.mpr (Ne.symm hne)
    simp only [dictFind, List.find?_append]
    cases hf : hs.find? (fun p => p.1 == k2) with
    | some p => simp [Option.orElse]
    | none => simp [Option.orElse, List.find?, hk2]

/-- C4 (amended).  Only the async pipeline treats HTTP 401 as
non-retryable: its first-attempt 401 ends the stub after exactly one call
with outcome `None` (counted as one failure by the run loop).  The sync
pipeline treats 401 like any other request error: it retries up to
`max_retries = 2` further attempts before giving up with `None`. -/
theorem c4_unauthorized :
    (∀ (o : Nat → AsyncResp) (b : Except String JVal),
      o 0 = .resp 401 b → getProfileAsync o = (none, 1))
    ∧ (∀ o : Nat → DetailResp,
      (∀ k, k ≤ 2 → ∃ m, o k = .reqErr m ∧ isQuotaMsg m = false) →
      getProfileSync o 2 = (.ok none, 3)) := by
  constructor
  · intro o b h
    simp [getProfileAsync, getProfileAsyncGo, h]
  · intro o h
    obtain ⟨m0, h0, q0⟩ := h 0 (by decide)
    obtain ⟨m1, h1, q1⟩ := h 1 (by decide)
    obtain ⟨m2, h2, q2⟩ := h 2 (by decide)
    simp [getProfileSync, getProfileSyncGo, h0, q0, h1, q1, h2, q2]

/-- Witness for C4: a persistent-401 oracle on both pipelines. -/
theorem c4_unauthorized_witness :
    getProfileAsync (fun _ => .resp 401 (.ok .null)) = (none, 1)
    ∧ getProfileSync (fun _ => .reqErr "401 Client Error: Unauthorized for url: u") 2
      = (.ok none, 3) :=
  ⟨c4_unauthorized.1 (fun _ => .resp 401 (.ok .null)) (.ok .null) rfl,
   c4_unauthorized.2 (fun _ => .reqErr "401 Client Error: Unauthorized for url: u")
     (fun k hk => ⟨"401 Client Error: Unauthorized for url: u", rfl, by decide⟩)⟩

/-- Counterexample for C4 as stated: in the sync pipeline a stub whose
detail call persistently returns 401 is retried — three HTTP calls are
made, not one, before it is recorded as a failure. -/
theorem c4_counterexample :
    getProfileSync (fun _ => .reqErr "401 Client Error: Unauthorized for url: u") 2
      = (.ok none, 3)
    ∧ (3 : Nat) ≠ 1 :=
  ⟨rfl, by decide⟩

lemma dictHas_of_find (hs : List (String × String)) (k v : String)
    (h : dictFind hs k = some v) : dictHas hs k = true := by
  unfold dictFind at h
  cases hf : hs.find? (fun p => p.1 == k) with
  | none => rw [hf] at h; cases h
  | some p =>
    have hm := List.mem_of_find?_eq_some hf
    have hp := List.find?_some hf
    exact List.any_eq_true.mpr ⟨p, hm, hp⟩

lemma applyHeadersAsync_lastVal (key : String) (hden : asyncHeaderDeny.contains key = false) :
    ∀ (ms : List (List Char × List Char)) (h0 : List (String × String)),
      dictFind (applyHeadersAsync h0 ms) key =
        match lastHeaderVal key ms with
        | some v => some v
        | none => dictFind h0 key := by
  intro ms
  induction ms with
  | nil => intro h0; rfl
  | cons kv rest ih =>
    intro h0
    have hstep : applyHeadersAsync h0 (kv :: rest) =
        applyHeadersAsync
          (if asyncHeaderDeny.contains ((lowerCh (trimCh kv.1)).asString) then h0
           else dictInsert h0 ((lowerCh (trimCh kv.1)).asString) ((trimCh kv.2).asString))
          rest := rfl
    rw [hstep]
    by_cases hd : asyncHeaderDeny.contains ((lowerCh (trimCh kv.1)).asString) = true
    · rw [if_pos hd, ih]
      have hne : (((lowerCh (trimCh kv.1)).asString) == key) = false := by
        apply beq_eq_false_iff_ne.mpr
        intro hEq
        rw [hEq, hden] at hd
        cases hd
      simp only [lastHeaderVal, hne, Bool.false_eq_true, reduceIte]
      cases lastHeaderVal key rest <;> rfl
    · rw [if_neg hd, ih]
      by_cases hkk : ((lowerCh (trimCh kv.1)).asString) = key
      · cases hlv : lastHeaderVal key rest with
        | some v => simp only [lastHeaderVal, hlv]
        | none =>
          have hkkb : (((lowerCh (trimCh kv.1)).asString) == key) = true := beq_iff_eq.mpr hkk
          simp only [lastHeaderVal, hlv, hkkb, reduceIte]
          rw [hkk, dictFind_dictInsert_self]
      · have hkkb : (((lowerCh (trimCh kv.1)).asString) == key) = false :=
          beq_eq_false_iff_ne.mpr hkk
        rw [dictFind_dictInsert_ne _ _ _ _ (fun hEq => hkk hEq.symm)]
        simp only [lastHeaderVal, hkkb, Bool.false_eq_true, reduceIte]
        cases lastHeaderVal key rest <;> rfl

lemma applyHeadersSync_cookie (ms : List (List Char × List Char)) :
    ∀ (h0 : List (String × String)) (v : String),
      dictFind h0 "cookie" = some v →
      dictFind (applyHeadersSync h0 ms) "cookie" = some v := by
  induction ms with
  | nil => intro h0 v h; exact h
  | cons kv rest ih =>
    intro h0 v h
    have hstep : applyHeadersSync h0 (kv :: rest) =
        applyHeadersSync
          (if ((lowerCh (trimCh kv.1)).asString != "cookie" ||
               !dictHas h0 ((lowerCh (trimCh kv.1)).asString))
           then dictInsert h0 ((lowerCh (trimCh kv.1)).asString) ((trimCh kv.2).asString)
           else h0)
          rest := rfl
    rw [hstep]
    by_cases hck : ((lowerCh (trimCh kv.1)).asString) = "cookie"
    · have hhas : dictHas h0 ((lowerCh (trimCh kv.1)).asString) = true := by
        rw [hck]
        exact dictHas_of_find h0 "cookie" v h
      have hguard : (((lowerCh (trimCh kv.1)).asString != "cookie") ||
          !dictHas h0 ((lowerCh (trimCh kv.1)).asString)) = false := by
        rw [hhas]
        have : (((lowerCh (trimCh kv.1)).asString != "cookie")) = false := by
          simp [bne, hck]
        rw [this]
        rfl
      rw [hguard]
      simp only [Bool.false_eq_true, reduceIte]
      exact ih h0 v h
    · by_cases hguard : (((lowerCh (trimCh kv.1)).asString != "cookie") ||
          !dictHas h0 ((lowerCh (trimCh kv.1)).asString)) = true
      · rw [hguard]
        simp only [reduceIte]
        apply ih
        rw [dictFind_dictInsert_ne _ _ _ _ (fun hEq => hck hEq.symm)]
        exact h
      · rw [Bool.not_eq_true] at hguard
        rw [hguard]
        simp only [Bool.false_eq_true, reduceIte]
        exact ih h0 v h

/-- C5 (amended).  Duplicate header keys resolve to the LAST occurrence,
not the first: in the async parser a later `-H` match simply overwrites
the dict entry (for any non-deny-listed key, the resulting value is the
last matching occurrence, falling back to the pre-existing entry), and in
the sync parser the same holds except for the `cookie` key, whose
pre-existing value from the dedicated cookie path is preserved. -/
theorem c5_duplicate_header_keys :
    (∀ (key : String), asyncHeaderDeny.contains key = false →
      ∀ (ms : List (List Char × List Char)) (h0 : List (String × String)),
        dictFind (applyHeadersAsync h0 ms) key =
          match lastHeaderVal key ms with
          | some v => some v
          | none => dictFind h0 key)
    ∧ (∀ (ms : List (List Char × List Char)) (h0 : List (String × String)) (v : String),
        dictFind h0 "cookie" = some v →
        dictFind (applyHeadersSync h0 ms) "cookie" = some v) :=
  ⟨applyHeadersAsync_lastVal, applyHeadersSync_cookie⟩

/-- Witness for C5 on the concrete sample template: the async header fold
of the actual `-H` matches resolves `x-custom` to its last-occurrence
value, and the sync fold keeps the dedicated cookie. -/
theorem c5_duplicate_header_keys_witness :
    (dictFind (applyHeadersAsync [] (findHeaders (normalizeCurl sampleCurl))) "x-custom" =
      match lastHeaderVal "x-custom" (findHeaders (normalizeCurl sampleCurl)) with
      | some v => some v
      | none => dictFind [] "x-custom")
    ∧ dictFind (applyHeadersSync [("cookie", "k=v")] (findHeaders (normalizeCurl sampleCurl)))
        "cookie" = some "k=v" :=
  ⟨c5_duplicate_header_keys.1 "x-custom" (by decide) (findHeaders (normalizeCurl sampleCurl)) [],
   c5_duplicate_header_keys.2 (findHeaders (normalizeCurl sampleCurl)) [("cookie", "k=v")]
     "k=v" rfl⟩

/-- Counterexample for C5 as stated: parsing a template that sets
`x-custom` twice (`first`, then `second`) stores the SECOND value, so the
first occurrence does not win. -/
theorem c5_counterexample :
    (match parseCurlAsync sampleCurl (fun _ => none) with
     | .ok d => dictFind d.headers "x-custom"
     | .error _ => none) = some "second"
    ∧ some "second" ≠ some "first" :=
  ⟨rfl, by decide⟩

lemma ugField_ex (e : JVal) (k : String) (h : eduOk e = true) : ∃ v, ugField e k = .ok v := by
  cases e with
  | null => simp [eduOk] at h
  | bool b => simp [eduOk] at h
  | num n => simp [eduOk] at h
  | str s =>
    have hs : s = "" := by simpa [eduOk] using h
    subst hs
    exact ⟨.null, rfl⟩
  | obj fs =>
    have hfs : fs = [] := by simpa [eduOk, List.isEmpty_iff] using h
    subst hfs
    exact ⟨.null, rfl⟩
  | arr xs =>
    cases xs with
    | nil => exact ⟨.null, rfl⟩
    | cons x rest =>
      cases x with
      | obj f => exact ⟨_, rfl⟩
      | null => simp [eduOk] at h
      | bool b => simp [eduOk] at h
      | num n => simp [eduOk] at h
      | str s => simp [eduOk] at h
      | arr ys => simp [eduOk] at h

lemma pgField_ex (e : JVal) (k : String) (h : eduOk e = true) : ∃ v, pgField e k = .ok v := by
  cases e with
  | null => simp [eduOk] at h
  | bool b => simp [eduOk] at h
  | num n => simp [eduOk] at h
  | str s =>
    have hs : s = "" := by simpa [eduOk] using h
    subst hs
    exact ⟨.null, rfl⟩
  | obj fs =>
    have hfs : fs = [] := by simpa [eduOk, List.isEmpty_iff] using h
    subst hfs
    exact ⟨.null, rfl⟩
  | arr xs =>
    cases xs with
    | nil => exact ⟨.null, rfl⟩
    | cons x rest =>
      cases rest with
      | nil => exact ⟨.null, rfl⟩
      | cons y rest2 =>
        cases y with
        | obj g =>
          refine ⟨pyGetF g k, ?_⟩
          have hlt : 1 < (x :: JVal.obj g :: rest2).length := by
            simp [List.length_cons]
          simp [pgField, pyLen, Bind.bind, Except.bind, hlt, eduIndexGet]
        | null => simp [eduOk] at h
        | bool b => simp [eduOk] at h
        | num n => simp [eduOk] at h
        | str s => simp [eduOk] at h
        | arr ys => simp [eduOk] at h

/-- C6 (amended).  The normaliser is total only on records whose
`educations` value is well-shaped (absent, an empty sized value, or a
list whose first two entries are objects when accessed): on those it
returns a record without raising, and on the empty raw record every
output field except the timestamp is `null`.  Outside that shape — e.g.
`educations: null` — it raises (see the counterexample). -/
theorem c6_normalizer_totality :
    (∀ (now : String) (fs : List (String × JVal)),
      eduOk (pyGetFD fs "educations" (.arr [])) = true →
      (formatProfile now (.obj fs)).isOkB = true)
    ∧ ((formatCore (.obj [])).map (fun l => l.all (fun p => p.2.isNullB)) = .ok true) := by
  constructor
  · intro now fs h
    obtain ⟨v1, hv1⟩ := ugField_ex _ "degree" h
    obtain ⟨v2, hv2⟩ := ugField_ex _ "specialization" h
    obtain ⟨v3, hv3⟩ := ugField_ex _ "institute" h
    obtain ⟨v4, hv4⟩ := ugField_ex _ "year" h
    obtain ⟨v5, hv5⟩ := pgField_ex _ "degree" h
    obtain ⟨v6, hv6⟩ := pgField_ex _ "specialization" h
    obtain ⟨v7, hv7⟩ := pgField_ex _ "institute" h
    obtain ⟨v8, hv8⟩ := pgField_ex _ "year" h
    simp [formatProfile, formatCore, Bind.bind, Except.bind,
      hv1, hv2, hv3, hv4, hv5, hv6, hv7, hv8, Except.isOkB, Except.map]
  · rfl

/-- Witness for C6 at a concrete record with a two-entry education
list. -/
theorem c6_normalizer_totality_witness :
    eduOk (pyGetFD [("educations", JVal.arr [.obj [("degree", .str "BSc")], .obj []])]
        "educations" (.arr [])) = true
    ∧ (formatProfile "T" (.obj [("educations",
        JVal.arr [.obj [("degree", .str "BSc")], .obj []])])).isOkB = true :=
  ⟨by decide,
   c6_normalizer_totality.1 "T" [("educations", JVal.arr [.obj [("degree", .str "BSc")], .obj []])]
     (by decide)⟩

/-- Counterexample for C6 as stated: on the raw record
`{"educations": null}` the normaliser raises a `TypeError` from
`len(edu_list)` — it is not total, and unexpected field types are not
mapped to null. -/
theorem c6_counterexample :
    formatProfile "T" (.obj [("educations", .null)]) = .error "TypeError: object has no len" :=
  rfl

/-- C7 (amended).  Erasing the `scrapedAt` timestamp, the normaliser is
deterministic: two applications to the same unchanged raw record agree on
every other field, whatever the clock reads.  The `scrapedAt` field
itself records the wall clock of each call and differs between calls (see
the counterexample). -/
theorem c7_normalizer_deterministic (n1 n2 : String) (d : JVal) :
    dropScrapedAt (formatProfile n1 d) = dropScrapedAt (formatProfile n2 d) := by
  unfold formatProfile dropScrapedAt
  cases hc : formatCore d with
  | error m => rfl
  | ok core =>
    simp [Except.map, List.filter_append, List.filter_cons, bne_self_eq_false]

/-- Witness for C7 at a concrete record and two clock values. -/
theorem c7_normalizer_deterministic_witness :
    dropScrapedAt (formatProfile "2024-01-01T00:00:00" (.obj [("name", .str "a")])) =
      dropScrapedAt (formatProfile "2025-06-30T12:00:00" (.obj [("name", .str "a")])) :=
  c7_normalizer_deterministic "2024-01-01T00:00:00" "2025-06-30T12:00:00"
    (.obj [("name", .str "a")])

/-- Counterexample for C7 as stated: two applications of the normaliser
to the same unchanged record differ when the clock has moved — the
`scrapedAt` field embeds `datetime.now()`. -/
theorem c7_counterexample :
    formatProfile "2024-01-01T00:00:00" (.obj []) ≠
      formatProfile "2025-06-30T12:00:00" (.obj []) :=
  fun h => absurd (congrArg scrapedOf h) (by decide)

/-- C8 (confirmed).  When no quoted target URL can be located after the
command verb (both URL regexes fail in the async parser; the single-quote
regex fails in the sync parser), parsing fails with the
URL-extraction `ValueError` and the run returns its error envelope with
zero network calls issued. -/
theorem c8_malformed_template :
    (∀ (raw : String) (jp : String → Option JVal) (now : String) (maxR : Nat)
      (snet : AsyncResp) (pnet : Nat → AsyncResp) (dnet : Nat → Nat → AsyncResp),
      findUrlAsync (normalizeCurl raw) = none →
      asyncRun raw jp now maxR snet pnet dnet =
        (.failEnv ("CURL Parsing Error: " ++ "Failed to extract URL from cURL"), 0))
    ∧ (∀ (raw : String) (jp : String → Option JVal) (snet : AsyncResp)
      (pnet : Nat → AsyncResp) (dnet : Nat → Nat → DetailResp) (maxR : Nat),
      findUrlSync (normalizeCurl raw) = none →
      syncScrape raw jp snet pnet dnet maxR = (.fail "Failed to extract URL from cURL", 0)) := by
  constructor
  · intro raw jp now maxR snet pnet dnet h
    unfold asyncRun parseCurlAsync
    simp only [h]
  · intro raw jp snet pnet dnet maxR h
    unfold syncScrape parseCurlSync
    simp only [h]

/-- Witness for C8: a template whose URL is not quoted fails both
pipelines before any network call. -/
theorem c8_malformed_template_witness :
    asyncRun "curl https://x.com" (fun _ => none) "T" 10 (.exn "e") (fun _ => .exn "e")
      (fun _ => fun _ => .exn "e") =
      (.failEnv ("CURL Parsing Error: " ++ "Failed to extract URL from cURL"), 0)
    ∧ syncScrape "curl https://x.com" (fun _ => none) (.exn "e") (fun _ => .exn "e")
      (fun _ => fun _ => .reqErr "e") 10 = (.fail "Failed to extract URL from cURL", 0) :=
  ⟨c8_malformed_template.1 "curl https://x.com" (fun _ => none) "T" 10 (.exn "e")
      (fun _ => .exn "e") (fun _ => fun _ => .exn "e") (by decide),
   c8_malformed_template.2 "curl https://x.com" (fun _ => none) (.exn "e") (fun _ => .exn "e")
      (fun _ => fun _ => .reqErr "e") 10 (by decide)⟩

lemma syncPageLoopGo_ds_le (maxR : Nat) (pnet : Nat → AsyncResp) (b : JVal) :
    ∀ (ps : List Nat) (acc : List JVal),
      (syncPageLoopGo maxR pnet b acc ps).2.length ≤ ps.length := by
  intro ps
  induction ps with
  | nil => intro acc; exact Nat.le_refl 0
  | cons p rest ih =>
    intro acc
    cases hpre : syncPagePrelude b with
    | error m => simp [syncPageLoopGo, hpre]
    | ok u =>
      cases hpg : getPageSync (pnet p) with
      | error m => simp [syncPageLoopGo, hpre, hpg]
      | ok tJ =>
        cases hit : pyIterElems tJ with
        | error m => simp [syncPageLoopGo, hpre, hpg, hit]
        | ok ext =>
          simp only [syncPageLoopGo, hpre, hpg, hit]
          by_cases hle : maxR ≤ (acc ++ ext).length
          · rw [if_pos hle]
            show 1 ≤ rest.length + 1
            omega
          · rw [if_neg hle]
            have hih : (syncPageLoopGo maxR pnet b (acc ++ ext) rest).2.length ≤ rest.length :=
              ih (acc ++ ext)
            show (syncPageLoopGo maxR pnet b (acc ++ ext) rest).2.length + 1 ≤ rest.length + 1
            omega

lemma syncCollect_ds_le (maxR : Nat) (t b : JVal) (pnet : Nat → AsyncResp) :
    (syncCollect maxR t b pnet).2.length ≤ 9 := by
  have hpl9 : (syncPagesPlanned maxR).length ≤ 9 := by
    have hmin : min (maxR / 50) 10 ≤ 10 := Nat.min_le_right _ _
    simp only [syncPagesPlanned, List.length_range']
    omega
  unfold syncCollect
  cases hplc : syncPagesPlanned maxR with
  | nil => simp
  | cons p rest =>
    rw [hplc] at hpl9
    simp only [List.length_cons] at hpl9
    cases hpre : syncPagePrelude b with
    | error m => simp [hpre]
    | ok u =>
      cases hpg : getPageSync (pnet p) with
      | error m =>
        simp [hpre, hpg]
      | ok tJ =>
        cases t with
        | arr xs =>
          cases hit : pyIterElems tJ with
          | error m =>
            simp [hpre, hpg, hit]
          | ok ext =>
            simp only [hpre, hpg, hit]
            by_cases hle : maxR ≤ (xs ++ ext).length
            · rw [if_pos hle]
              show 1 ≤ 9
              omega
            · rw [if_neg hle]
              have hds : (syncPageLoopGo maxR pnet b (xs ++ ext) rest).2.length ≤ rest.length :=
                syncPageLoopGo_ds_le maxR pnet b rest (xs ++ ext)
              rcases hlp : syncPageLoopGo maxR pnet b (xs ++ ext) rest with ⟨cr, ds⟩
              rw [hlp] at hds
              simp only at hds
              cases cr with
              | ok acc2 =>
                show (p :: ds).length ≤ 9
                simp only [List.length_cons]
                omega
              | error m =>
                show (p :: ds).length ≤ 9
                simp only [List.length_cons]
                omega
        | null =>
          simp [hpre, hpg]
        | bool c =>
          simp [hpre, hpg]
        | num n =>
          simp [hpre, hpg]
        | str sv =>
          simp [hpre, hpg]
        | obj fs =>
          simp [hpre, hpg]

lemma asyncPageNumsGo_len (maxR totalN : Nat) :
    ∀ (fuel c i : Nat),
      50 * (asyncPageNumsGo maxR totalN fuel c i).length ≤ (min maxR totalN + 49) - c := by
  intro fuel
  induction fuel with
  | zero => intro c i; simp [asyncPageNumsGo]
  | succ fuel ih =>
    intro c i
    unfold asyncPageNumsGo
    split
    · rename_i hguard
      rw [Bool.and_eq_true] at hguard
      obtain ⟨hg1, hg2⟩ := hguard
      have hc1 : c < maxR := by simpa using hg1
      have hc2 : c < totalN := by simpa using hg2
      have hcmin : c < min maxR totalN := Nat.lt_min.mpr ⟨hc1, hc2⟩
      have := ih (c + 50) (i + 1)
      simp only [List.length_cons]
      omega
    · simp

/-- C9 (amended).  The sync pipeline does dispatch at most 9 additional
page calls (`pages_needed = min(max_results // 50, 10)`, pages 2..10), a
hard cap independent of the caller's target — but that cap is not
additionally reduced by `totalAvailable`, which sync pagination never
consults (only the stubs-held break at line 308; see the counterexample).
The real async pipeline issues no pagination call at all: on every
parsable template `run` raises `AttributeError` on the un-awaited
`initial_search` coroutine before any network call.  In the awaited
idealisation the page count is capped only by the target and the supply,
`50 · pages ≤ min(max_results, totalResumes)` — no constant bounds it. -/
theorem c9_pagination_bound :
    (∀ (maxR : Nat) (t b : JVal) (pnet : Nat → AsyncResp),
      (syncCollect maxR t b pnet).2.length ≤ 9)
    ∧ (∀ (raw : String) (jp : String → Option JVal) (now : String) (maxR : Nat)
        (snet : AsyncResp) (pnet : Nat → AsyncResp) (dnet : Nat → Nat → AsyncResp)
        (d : Descriptor),
        parseCurlAsync raw jp = .ok d →
        asyncRun raw jp now maxR snet pnet dnet =
          (.raised "AttributeError: coroutine object has no attribute get", 0))
    ∧ (∀ maxR totalN : Nat,
      50 * (asyncPageNums maxR totalN).length ≤ min maxR totalN) := by
  refine ⟨?_, ?_, ?_⟩
  · intro maxR t b pnet
    exact syncCollect_ds_le maxR t b pnet
  · intro raw jp now maxR snet pnet dnet d h
    unfold asyncRun
    simp only [h]
  · intro maxR totalN
    unfold asyncPageNums
    split
    · rename_i hguard
      rw [Bool.and_eq_true] at hguard
      have h50 : 50 < min maxR totalN := by
        obtain ⟨hg1, hg2⟩ := hguard
        have hc1 : 50 < maxR := by simpa using hg1
        have hc2 : 50 < totalN := by simpa using hg2
        exact Nat.lt_min.mpr ⟨hc1, hc2⟩
      have := asyncPageNumsGo_len maxR totalN maxR 50 2
      omega
    · simp

set_option maxRecDepth 100000 in
/-- Witness for C9: the sync 9-page cap at a concrete collection, and a
concrete parsable template on which the async run raises with zero
calls. -/
theorem c9_pagination_bound_witness :
    (syncCollect 500 (.arr []) .null (fun _ => .exn "e")).2.length ≤ 9
    ∧ asyncRun dataCurl (fun _ => none) "T" 1050 (.exn "e") (fun _ => .exn "e")
        (fun _ => fun _ => .exn "e")
      = (.raised "AttributeError: coroutine object has no attribute get", 0) :=
  ⟨c9_pagination_bound.1 500 (.arr []) .null (fun _ => .exn "e"),
   c9_pagination_bound.2.1 dataCurl (fun _ => none) "T" 1050 (.exn "e") (fun _ => .exn "e")
     (fun _ => fun _ => .exn "e") _ rfl⟩

set_option maxRecDepth 100000 in
/-- Counterexample for C9 as stated: the sync dispatch is not capped by
`totalAvailable`.  In a run with target 500 whose search reports a supply
of only 10 records — one stub on the first page, every further page empty
— the pipeline still dispatches all 9 planned page calls (pages 2..10),
though a supply cap with page size 50 would permit `10 / 50 = 0`
additional pages; the end-to-end run makes 11 HTTP calls (1 search + 9
pages + 1 detail). -/
theorem c9_counterexample :
    parsedBodySyncOf dataCurl (fun _ => none) = dataBody
    ∧ (syncCollect 500 (.arr [.obj []]) dataBody
        (fun _ => .resp 200 (.ok (.obj [("tuples", .arr [])])))).2
      = [2, 3, 4, 5, 6, 7, 8, 9, 10]
    ∧ syncScrape dataCurl (fun _ => none) (.resp 200 (.ok searchSmallBody))
        (fun _ => .resp 200 (.ok (.obj [("tuples", .arr [])])))
        (fun _ => fun _ => .ok (.obj [("profile", .str "p")])) 500
      = (.ok ⟨1, 0, [.obj [("profile", .str "p")]]⟩, 11)
    ∧ ¬ ((9 : Nat) ≤ 10 / 50) :=
  ⟨rfl, rfl, rfl, by decide⟩

/-- C10 (confirmed).  None of the three async network calls mutates the
parsed header map: `initial_search` writes only the session fields and
every call sends `self.headers.copy()` extended with the per-call
`x-transaction-id`; `get_page` and `get_individual_profile` leave the
whole object state untouched. -/
theorem c10_headers_immutable :
    (∀ (st : ScraperState) (tx : String) (net : AsyncResp),
      (initialSearchStep st tx net).1 = dictInsert st.headers "x-transaction-id" tx
      ∧ ((initialSearchStep st tx net).2.1).headers = st.headers)
    ∧ (∀ (st : ScraperState) (tx : String) (net : AsyncResp),
      (getPageStep st tx net).2.1 = st
      ∧ ∀ hs, (getPageStep st tx net).1 = some hs →
          hs = dictInsert st.headers "x-transaction-id" tx)
    ∧ (∀ (st : ScraperState) (profile : JVal) (tx : String) (o : Nat → AsyncResp),
      (getProfileStep st profile tx o).2.1 = st
      ∧ ∀ hs, (getProfileStep st profile tx o).1 = some hs →
          hs = dictInsert st.headers "x-transaction-id" tx) := by
  refine ⟨fun st tx net => ⟨?_, ?_⟩, fun st tx net => ⟨?_, ?_⟩,
    fun st profile tx o => ⟨?_, ?_⟩⟩
  · unfold initialSearchStep
    repeat' split
    all_goals rfl
  · unfold initialSearchStep
    repeat' split
    all_goals rfl
  · unfold getPageStep
    repeat' split
    all_goals rfl
  · intro hs hh
    unfold getPageStep at hh
    repeat' split at hh
    all_goals cases hh
    all_goals rfl
  · unfold getProfileStep
    repeat' split
    all_goals rfl
  · intro hs hh
    unfold getProfileStep at hh
    repeat' split at hh
    all_goals cases hh
    all_goals rfl

/-- Witness for C10 at a concrete state and call results, including the
sent-header clauses of the page and detail steps. -/
theorem c10_headers_immutable_witness :
    ((initialSearchStep ⟨some "u", [("a", "b")], .obj [], .null, .null⟩ "t1" (.exn "e")).1 =
      dictInsert [("a", "b")] "x-transaction-id" "t1"
      ∧ ((initialSearchStep ⟨some "u", [("a", "b")], .obj [], .null, .null⟩ "t1"
          (.exn "e")).2.1).headers = [("a", "b")])
    ∧ ((getPageStep c10State "t2" (.exn "e")).2.1 = c10State
      ∧ dictInsert c10State.headers "x-transaction-id" "t2" =
          dictInsert c10State.headers "x-transaction-id" "t2")
    ∧ ((getProfileStep c10State (.obj []) "t3" (fun _ => .exn "e")).2.1 = c10State
      ∧ dictInsert c10State.headers "x-transaction-id" "t3" =
          dictInsert c10State.headers "x-transaction-id" "t3") :=
  ⟨c10_headers_immutable.1 ⟨some "u", [("a", "b")], .obj [], .null, .null⟩ "t1" (.exn "e"),
   ⟨(c10_headers_immutable.2.1 c10State "t2" (.exn "e")).1,
    ((c10_headers_immutable.2.1 c10State "t2" (.exn "e")).2
      (dictInsert c10State.headers "x-transaction-id" "t2") rfl).symm ▸ rfl⟩,
   ⟨(c10_headers_immutable.2.2 c10State (.obj []) "t3" (fun _ => .exn "e")).1,
    ((c10_headers_immutable.2.2 c10State (.obj []) "t3" (fun _ => .exn "e")).2
      (dictInsert c10State.headers "x-transaction-id" "t3") rfl).symm ▸ rfl⟩⟩
